import Mathlib

/-!
Clocky: a shallow embedding of `main.go`

The firmware keeps four package-level variables (`state`, `dots`, `buttons`,
`offset`).  They are gathered in the record `Globals`, and every Go function
becomes a function from `Globals` to `Option Globals`; `none` stands for a
run-time panic (a slice index out of range).

Modelling conventions:
* Go `int` values are `Int`, and the size of `int` on the target is the parameter
  `sz : IntSize` (32 or 64 bits).  Go's `/` and `%` truncate towards zero, so they
  are `Int.tdiv` and `Int.tmod`.  The two results that can leave the range of an
  `int` are stored through `IntSize.wrap`: `int(now) + offset` in `updateFace` and
  `b.dwell++` in `updateState`.  Every other result is bounded by the modulus just
  taken (an hour below 24, a minute below 60, a recomposed offset below 90000, a
  display number below 2400, an LED position at most 4) and cannot wrap.
* `[]uint32` slices are `List Nat`; indexing goes through `sliceGet` and
  `sliceSet`, which fail outside `0 ≤ i < len`.
* Reads of the outside world are arguments: `pin.Get()` is a `Bool`,
  `time.Now().Unix()` is an `Int`.
-/

namespace Clocky

/-! ## Slices -/

/-- Go's `xs[i]` as an expression: fails when the index is out of range. -/
def sliceGet {α : Type} (xs : List α) (i : Int) : Option α :=
  if 0 ≤ i ∧ i < (xs.length : Int) then xs.get? i.toNat else none

/-- Go's `xs[i] = v`: fails when the index is out of range. -/
def sliceSet {α : Type} (xs : List α) (i : Int) (v : α) : Option (List α) :=
  if 0 ≤ i ∧ i < (xs.length : Int) then some (xs.set i.toNat v) else none

/-! ## Machine integers -/

/-- The size of Go's `int` on the target.  The language fixes it at 32 or 64 bits; the
microcontrollers this firmware is built for have 32. -/
inductive IntSize where
  | w32
  | w64
  deriving DecidableEq, Repr

/-- Number of bits of an `int`. -/
def IntSize.bits : IntSize → Nat
  | .w32 => 32
  | .w64 => 64

/-- The largest `int`. -/
def IntSize.maxInt (sz : IntSize) : Int := 2 ^ (sz.bits - 1) - 1

/-- The smallest `int`. -/
def IntSize.minInt (sz : IntSize) : Int := -(2 ^ (sz.bits - 1))

/-- Two's-complement wrap-around: the `int` in which the exact result `x` is stored.  It
is also the conversion `int(x)` of a wider integer. -/
def IntSize.wrap (sz : IntSize) (x : Int) : Int :=
  (x + 2 ^ (sz.bits - 1)) % 2 ^ sz.bits - 2 ^ (sz.bits - 1)

/-! ## Package-level data -/

/-- The bitmap for each LED digit; bit 0 is the decimal point. -/
def digits : List Nat :=
  [ 0b11111100, -- 0
    0b01100000, -- 1
    0b11011010, -- 2
    0b11110010, -- 3
    0b01100110, -- 4
    0b10110110, -- 5
    0b00111110, -- 6
    0b11100000, -- 7
    0b11111110, -- 8
    0b11100110  -- 9
  ]

def ButtonOff : Int := 0
def ButtonPressed : Int := 1
def ButtonHeld : Int := 2

/-- Button ID and state.  `pin` is the GPIO number the button is wired to. -/
structure button where
  index : Int
  pin : Nat
  dwell : Int
  pressed : Bool
  deriving DecidableEq, Repr

/-- The package-level variables of `main.go`. -/
structure Globals where
  /-- The state of each LED digit. -/
  state : List Nat
  /-- The state of the dots, managed separately. -/
  dots : List Nat
  /-- Buttons used to control the clock. -/
  buttons : List button
  /-- The amount added to the time by the adjustment buttons. -/
  offset : Int
  deriving DecidableEq, Repr

/-- The variables as their declarations initialise them. -/
def Globals.initial : Globals :=
  { state := [0, 0, 0, 0], dots := [0, 0, 0, 0], buttons := [], offset := 0 }

/-- Go function `addButton`: append a button whose index is the current number of buttons. -/
def addButton (pinId : Nat) (g : Globals) : Globals :=
  let b : button := { index := g.buttons.length, pin := pinId, dwell := 0, pressed := false }
  { g with buttons := g.buttons ++ [b] }

/-- The variables once `main` has registered its two buttons. -/
def Globals.boot : Globals :=
  addButton 17 (addButton 16 Globals.initial)

/-! ## Buttons -/

/-- Method `(*button).updateState`: `active` is the value read by `b.pin.Get()`. -/
def button.updateState (sz : IntSize) (active : Bool) (b : button) (dots : List Nat) :
    Option (button × List Nat) :=
  if active then
    let b1 := { b with pressed := decide (b.dwell = 0) }
    let b2 := { b1 with dwell := sz.wrap (b1.dwell + 1) }
    (sliceSet dots b2.index 1).map fun dots' => (b2, dots')
  else
    let b1 := { b with dwell := 0 }
    let b2 := { b1 with pressed := false }
    (sliceSet dots b2.index 0).map fun dots' => (b2, dots')

/-- Method `(*button).state`. -/
def button.state (b : button) : Int :=
  if b.pressed then ButtonPressed
  else if b.dwell > 50 then ButtonHeld
  else ButtonOff

/-! ## The clock face -/

/-- First loop of `Display`: `for number > 0 && led < 4 { ... }`.
Returns the loop variables and the slots at loop exit. -/
def Display.fill (number : Int) (led : Int) (state : List Nat) :
    Option (Int × Int × List Nat) :=
  if number > 0 ∧ led < 4 then
    let digit := number.tmod 10
    match sliceGet digits digit with
    | none => none
    | some v =>
      match sliceSet state led v with
      | none => none
      | some state' => Display.fill (number.tdiv 10) (led + 1) state'
  else some (number, led, state)
termination_by (4 - led).toNat
decreasing_by omega

/-- Second loop of `Display`: `for led < 4 { state[led] = digits[0]; led++ }`. -/
def Display.clear (led : Int) (state : List Nat) : Option (List Nat) :=
  if led < 4 then
    match sliceGet digits 0 with
    | none => none
    | some v =>
      match sliceSet state led v with
      | none => none
      | some state' => Display.clear (led + 1) state'
  else some state
termination_by (4 - led).toNat
decreasing_by omega

/-- Go function `Display`: show the given number. -/
def Display (number : Int) (g : Globals) : Option Globals :=
  match Display.fill number 0 g.state with
  | none => none
  | some (_, led, state') =>
    match Display.clear led state' with
    | none => none
    | some state'' => some { g with state := state'' }

/-- Go function `updateFace`: `now` is the value of `time.Now().Unix()`, an `int64`;
the conversion `int(now)` and the sum are stored as `int`. -/
def updateFace (sz : IntSize) (now : Int) (g : Globals) : Option Globals :=
  let whn := sz.wrap (sz.wrap now + g.offset)
  let minute := (whn.tdiv 60).tmod 60
  let hour := (whn.tdiv 3600).tmod 24
  Display (hour * 100 + minute) g

/-! ## Adjusting the time -/

/-- Go function `setOffset`; the reading `now` is the one its `updateFace` sees. -/
def setOffset (sz : IntSize) (now : Int) (hour minute : Int) (g : Globals) :
    Option Globals :=
  updateFace sz now { g with offset := hour * 3600 + minute * 60 }

/-- Go function `updateTime`: check the state of the buttons and update the time.
`now0` and `now1` are the clock readings seen by the minute step and by the
hour step, when they run. -/
def updateTime (sz : IntSize) (now0 now1 : Int) (g : Globals) : Option Globals :=
  let hour := (g.offset.tdiv 3600).tmod 24
  let minute := (g.offset.tdiv 60).tmod 60
  match sliceGet g.buttons 0 with
  | none => none
  | some b0 =>
    let s0 := b0.state
    -- the two cases of the first switch have the same body
    let step0 : Option (Int × Globals) :=
      if s0 = ButtonPressed ∨ s0 = ButtonHeld then
        let minute1 := minute + 1
        let minute2 := if minute1 > 59 then 0 else minute1
        (setOffset sz now0 hour minute2 g).map fun g' => (minute2, g')
      else some (minute, g)
    match step0 with
    | none => none
    | some (minute', g1) =>
      match sliceGet g1.buttons 1 with
      | none => none
      | some b1 =>
        if b1.state = ButtonPressed then
          let hour1 := hour + 1
          let hour2 := if hour1 > 23 then 0 else hour1
          setOffset sz now1 hour2 minute' g1
        else some g1

/-! ## Harnesses: sequences of sampling ticks -/

/-- Sample one button on consecutive ticks: `updateState` with each reading in
turn, recording what `state()` returns after each.  Yields the classifications
in tick order, and the button and dots after the last tick. -/
def button.run (sz : IntSize) :
    List Bool → button → List Nat → Option (List Int × button × List Nat)
  | [], b, dots => some ([], b, dots)
  | a :: as, b, dots =>
    match b.updateState sz a dots with
    | none => none
    | some (b', dots') =>
      match button.run sz as b' dots' with
      | none => none
      | some (cs, b'', dots'') => some (b'.state :: cs, b'', dots'')

/-- What one call of `updateTime` finds: the two buttons as the sampling left
them, and the clock readings. -/
structure Tick where
  b0 : button
  b1 : button
  now0 : Int
  now1 : Int
  deriving DecidableEq, Repr

/-- Consecutive calls of `updateTime`, one per tick. -/
def updateTimes (sz : IntSize) : List Tick → Globals → Option Globals
  | [], g => some g
  | t :: ts, g =>
    match updateTime sz t.now0 t.now1 { g with buttons := [t.b0, t.b1] } with
    | none => none
    | some g' => updateTimes sz ts g'

/-! ## The four tasks, one round each -/

/-- The value `render` hands to `device.WriteMask` at position `led`.  The Go expression
is `bits<<4 | 0b1111 ^ (1 << led)` on `uint32`: the shifts bind tighter, and `|` and
`^` have the same precedence and associate to the left. -/
def render.mask (led : Nat) (g : Globals) : Option Nat :=
  match sliceGet g.state led, sliceGet g.dots led with
  | some s, some d =>
    let bits := s ||| d
    some ((((bits <<< 4) % 2 ^ 32) ||| 0b1111) ^^^ ((1 <<< led) % 2 ^ 32))
  | _, _ => none

/-- The inner loop of `render`, `for led := uint32(0); led < 4; led++`, from `led` on:
the values written to the device, in order.  It returns nothing else: `render` only
reads the package variables. -/
def render.pass (led : Nat) (g : Globals) : Option (List Nat) :=
  if led < 4 then
    match render.mask led g with
    | none => none
    | some w =>
      match render.pass (led + 1) g with
      | none => none
      | some ws => some (w :: ws)
  else some []
termination_by 4 - led

/-- One round of the loop of `sentinal`, after its sleep; the result carries the toggled
`isSet`.  The status LED is outside the model. -/
def sentinal.step (isSet : Bool) (g : Globals) : Option (Bool × Globals) :=
  if isSet then
    (sliceSet g.dots 2 1).map fun dots' => (!isSet, { g with dots := dots' })
  else
    (sliceSet g.dots 2 0).map fun dots' => (!isSet, { g with dots := dots' })

/-- One round of the loop of `clock`. -/
def clock.step (sz : IntSize) (now : Int) (g : Globals) : Option Globals :=
  updateFace sz now g

/-- The loop `for _, button := range buttons { button.updateState() }` of `checkButtons`;
`pins p` is the level of GPIO `p` on this tick. -/
def checkButtons.sample (sz : IntSize) (pins : Nat → Bool) :
    List button → List Nat → Option (List button × List Nat)
  | [], dots => some ([], dots)
  | b :: bs, dots =>
    match b.updateState sz (pins b.pin) dots with
    | none => none
    | some (b', dots') =>
      match checkButtons.sample sz pins bs dots' with
      | none => none
      | some (bs', dots'') => some (b' :: bs', dots'')

/-- One round of the loop of `checkButtons`: sample every button, then `updateTime`. -/
def checkButtons.step (sz : IntSize) (pins : Nat → Bool) (now0 now1 : Int) (g : Globals) :
    Option Globals :=
  match checkButtons.sample sz pins g.buttons g.dots with
  | none => none
  | some (bs, dots) => updateTime sz now0 now1 { g with buttons := bs, dots := dots }

/-- An operation on the package variables. -/
inductive Op where
  /-- A call `Display(number)`. -/
  | display (number : Int)
  /-- A call of `updateFace` when the clock reads `now`. -/
  | face (now : Int)
  /-- The sampling loop of `checkButtons` with the pin levels `pins`. -/
  | sample (pins : Nat → Bool)
  /-- A call of `updateTime`. -/
  | adjust (now0 now1 : Int)
  /-- A round of `sentinal`. -/
  | heartbeat (isSet : Bool)

/-- Run one operation. -/
def Op.apply (sz : IntSize) : Op → Globals → Option Globals
  | .display number, g => Display number g
  | .face now, g => updateFace sz now g
  | .sample pins, g =>
    (checkButtons.sample sz pins g.buttons g.dots).map fun r =>
      { g with buttons := r.1, dots := r.2 }
  | .adjust now0 now1, g => updateTime sz now0 now1 g
  | .heartbeat isSet, g => (sentinal.step isSet g).map fun r => r.2

/-- Run operations one after the other. -/
def runOps (sz : IntSize) : List Op → Globals → Option Globals
  | [], g => some g
  | op :: ops, g =>
    match op.apply sz g with
    | none => none
    | some g' => runOps sz ops g'

/-- The shape the variables have once `main` has set them up: four dots, at least the
two buttons, and every button pointing at one of the first two dots. -/
def Globals.wellFormed (g : Globals) : Prop :=
  g.state.length = 4 ∧ g.dots.length = 4 ∧ 2 ≤ g.buttons.length ∧
    ∀ b ∈ g.buttons, 0 ≤ b.index ∧ b.index < 2

/-- The offset that one call of `updateTime` leaves, from the classifications `s0` and
`s1` of buttons 0 and 1 and the offset before the call. -/
def nextOffset (s0 s1 : Int) (offset : Int) : Int :=
  let hour := (offset.tdiv 3600).tmod 24
  let minute := (offset.tdiv 60).tmod 60
  let minute' :=
    if s0 = ButtonPressed ∨ s0 = ButtonHeld then (if minute + 1 > 59 then 0 else minute + 1)
    else minute
  if s1 = ButtonPressed then (if hour + 1 > 23 then 0 else hour + 1) * 3600 + minute' * 60
  else if s0 = ButtonPressed ∨ s0 = ButtonHeld then hour * 3600 + minute' * 60
  else offset

/-- The bitmap of a decimal digit, `0` outside the table. -/
def digitBitmap (d : Int) : Nat := (sliceGet digits d).getD 0


/-! ## Machine integers: when nothing wraps -/

theorem maxInt_ge (sz : IntSize) : 2147483647 ≤ sz.maxInt := by
  cases sz <;> decide

theorem minInt_le (sz : IntSize) : sz.minInt ≤ -2147483648 := by
  cases sz <;> decide

theorem minInt_eq (sz : IntSize) : sz.minInt = -sz.maxInt - 1 := by
  cases sz <;> decide

/-- A result inside the range of `int` is stored as it is. -/
theorem wrap_eq (sz : IntSize) (x : Int) (h1 : sz.minInt ≤ x) (h2 : x ≤ sz.maxInt) :
    sz.wrap x = x := by
  cases sz
  · simp only [IntSize.wrap, IntSize.minInt, IntSize.maxInt, IntSize.bits] at *
    norm_num at *
    omega
  · simp only [IntSize.wrap, IntSize.minInt, IntSize.maxInt, IntSize.bits] at *
    norm_num at *
    omega

/-- Wrapping an operand first does not change the wrapped sum. -/
theorem wrap_wrap_add (sz : IntSize) (a b : Int) : sz.wrap (sz.wrap a + b) = sz.wrap (a + b) := by
  cases sz
  · simp only [IntSize.wrap, IntSize.bits]
    norm_num
    omega
  · simp only [IntSize.wrap, IntSize.bits]
    norm_num
    omega

/-- One past the largest `int` is stored as the smallest. -/
theorem wrap_succ_maxInt (sz : IntSize) : sz.wrap (sz.maxInt + 1) = sz.minInt := by
  cases sz <;> decide

theorem wrap_range (sz : IntSize) (x : Int) : sz.minInt ≤ sz.wrap x ∧ sz.wrap x ≤ sz.maxInt := by
  cases sz
  · simp only [IntSize.wrap, IntSize.minInt, IntSize.maxInt, IntSize.bits]
    norm_num
    omega
  · simp only [IntSize.wrap, IntSize.minInt, IntSize.maxInt, IntSize.bits]
    norm_num
    omega

theorem wrap_succ_eq_one (sz : IntSize) (d : Int) (h1 : sz.minInt ≤ d) (h2 : d ≤ sz.maxInt) :
    sz.wrap (d + 1) = 1 ↔ d = 0 := by
  cases sz
  · simp only [IntSize.wrap, IntSize.minInt, IntSize.maxInt, IntSize.bits] at *
    norm_num at *
    omega
  · simp only [IntSize.wrap, IntSize.minInt, IntSize.maxInt, IntSize.bits] at *
    norm_num at *
    omega
theorem sliceGet_digits (d : Int) (h0 : 0 ≤ d) (h1 : d < 10) :
    sliceGet digits d = some (digitBitmap d) := by
  interval_cases d <;> rfl

theorem clear_four (st : List Nat) : Display.clear 4 st = some st := by
  rw [Display.clear]; simp

theorem clear_three (a b c d : Nat) :
    Display.clear 3 [a, b, c, d] = some [a, b, c, 252] := by
  rw [Display.clear]; simp [sliceGet, sliceSet, digits, clear_four]

theorem clear_two (a b c d : Nat) :
    Display.clear 2 [a, b, c, d] = some [a, b, 252, 252] := by
  rw [Display.clear]; simp [sliceGet, sliceSet, digits, clear_three]

theorem clear_one (a b c d : Nat) :
    Display.clear 1 [a, b, c, d] = some [a, 252, 252, 252] := by
  rw [Display.clear]; simp [sliceGet, sliceSet, digits, clear_two]

theorem clear_zero (a b c d : Nat) :
    Display.clear 0 [a, b, c, d] = some [252, 252, 252, 252] := by
  rw [Display.clear]; simp [sliceGet, sliceSet, digits, clear_one]

theorem fill_stop (n led : Int) (st : List Nat) (h : ¬ (n > 0 ∧ led < 4)) :
    Display.fill n led st = some (n, led, st) := by
  rw [Display.fill]; simp only [h, if_false]

theorem fill_step (n led : Int) (st st' : List Nat) (hn : 0 < n) (hl : led < 4)
    (hs : sliceSet st led (digitBitmap (n % 10)) = some st') :
    Display.fill n led st = Display.fill (n / 10) (led + 1) st' := by
  rw [Display.fill]
  have h10 : n.tmod 10 = n % 10 := Int.tmod_eq_emod (le_of_lt hn) (by decide)
  have hd : n.tdiv 10 = n / 10 := Int.tdiv_eq_ediv (le_of_lt hn) (by decide)
  have hg := sliceGet_digits (n % 10) (by omega) (by omega)
  simp only [gt_iff_lt, hn, hl, and_self, if_true, h10, hd, hg, hs]


theorem digitBitmap_zero : digitBitmap 0 = 252 := rfl

theorem sliceSet_zero (a b c d v : Nat) : sliceSet [a, b, c, d] 0 v = some [v, b, c, d] := rfl
theorem sliceSet_one (a b c d v : Nat) : sliceSet [a, b, c, d] (0 + 1) v = some [a, v, c, d] := rfl
theorem sliceSet_two (a b c d v : Nat) : sliceSet [a, b, c, d] (0 + 1 + 1) v = some [a, b, v, d] := rfl
theorem sliceSet_three (a b c d v : Nat) :
    sliceSet [a, b, c, d] (0 + 1 + 1 + 1) v = some [a, b, c, v] := rfl

theorem Display_digits (n : Int) (g : Globals) (hlen : g.state.length = 4)
    (h0 : 0 ≤ n) :
    Display n g = some { g with state :=
      [digitBitmap (n % 10), digitBitmap (n / 10 % 10),
       digitBitmap (n / 100 % 10), digitBitmap (n / 1000 % 10)] } := by
  obtain ⟨st, dots, bs, off⟩ := g
  match st, hlen with
  | [a, b, c, d], _ =>
    simp only [Display]
    by_cases p0 : 0 < n
    · rw [fill_step n 0 _ _ p0 (by decide) (sliceSet_zero _ _ _ _ _)]
      by_cases p1 : 0 < n / 10
      · rw [fill_step (n / 10) (0 + 1) _ _ p1 (by decide) (sliceSet_one _ _ _ _ _)]
        by_cases p2 : 0 < n / 10 / 10
        · rw [fill_step (n / 10 / 10) (0 + 1 + 1) _ _ p2 (by decide) (sliceSet_two _ _ _ _ _)]
          by_cases p3 : 0 < n / 10 / 10 / 10
          · rw [fill_step (n / 10 / 10 / 10) (0 + 1 + 1 + 1) _ _ p3 (by decide)
              (sliceSet_three _ _ _ _ _)]
            rw [fill_stop _ _ _ (by omega)]
            have e2 : n / 10 / 10 = n / 100 := by omega
            have e3 : n / 100 / 10 = n / 1000 := by omega
            simp only [show (0 : Int) + 1 + 1 + 1 + 1 = 4 by rfl, clear_four, e2, e3]
          · rw [fill_stop _ _ _ (by omega)]
            have e2 : n / 10 / 10 = n / 100 := by omega
            have e3 : n / 1000 % 10 = 0 := by omega
            simp only [show (0 : Int) + 1 + 1 + 1 = 3 by rfl, clear_three, e2, e3,
              digitBitmap_zero]
        · rw [fill_stop _ _ _ (by omega)]
          have e2 : n / 100 % 10 = 0 := by omega
          have e3 : n / 1000 % 10 = 0 := by omega
          simp only [show (0 : Int) + 1 + 1 = 2 by rfl, clear_two, e2, e3, digitBitmap_zero]
      · rw [fill_stop _ _ _ (by omega)]
        have e1 : n / 10 % 10 = 0 := by omega
        have e2 : n / 100 % 10 = 0 := by omega
        have e3 : n / 1000 % 10 = 0 := by omega
        simp only [show (0 : Int) + 1 = 1 by rfl, clear_one, e1, e2, e3, digitBitmap_zero]
    · rw [fill_stop _ _ _ (by omega)]
      have e : n = 0 := by omega
      subst e
      simp only [clear_zero]
      rfl

theorem Display_nonpos (n : Int) (g : Globals) (hlen : g.state.length = 4) (h0 : n ≤ 0) :
    Display n g = some { g with state := [252, 252, 252, 252] } := by
  obtain ⟨st, dots, bs, off⟩ := g
  match st, hlen with
  | [a, b, c, d], _ =>
    simp only [Display]
    rw [fill_stop _ _ _ (by omega)]
    simp only [clear_zero]

theorem Display_total (n : Int) (g : Globals) (hlen : g.state.length = 4) :
    ∃ st, st.length = 4 ∧ Display n g = some { g with state := st } := by
  by_cases h : 0 ≤ n
  · exact ⟨[_, _, _, _], rfl, Display_digits n g hlen h⟩
  · exact ⟨[_, _, _, _], rfl, Display_nonpos n g hlen (by omega)⟩

theorem updateFace_total (sz : IntSize) (now : Int) (g : Globals) (hlen : g.state.length = 4) :
    ∃ st, st.length = 4 ∧ updateFace sz now g = some { g with state := st } :=
  Display_total _ g hlen

theorem clock_digits (h m : Int) (hh0 : 0 ≤ h) (hh : h < 24) (hm0 : 0 ≤ m) (hm : m < 60) :
    (h * 100 + m) % 10 = m % 10 ∧ (h * 100 + m) / 10 % 10 = m / 10 ∧
    (h * 100 + m) / 100 % 10 = h % 10 ∧ (h * 100 + m) / 1000 % 10 = h / 10 := by
  omega

/-- C1: for an hour `h` in `[0,24)` and a minute `m` in `[0,60)`, `Display (h*100 + m)`
succeeds and leaves exactly the four slots `digits[m mod 10]`, `digits[m / 10]`,
`digits[h mod 10]`, `digits[h / 10]`, least-significant digit first, whatever the
slots held before; so `5` gives the bitmaps of `[5,0,0,0]` and `1405` those of
`[5,0,4,1]`. -/
theorem Display_clock_number (h m : Int) (g : Globals)
    (hh0 : 0 ≤ h) (hh : h < 24) (hm0 : 0 ≤ m) (hm : m < 60) (hlen : g.state.length = 4) :
    (∃ d0 d1 d2 d3,
      sliceGet digits (m % 10) = some d0 ∧ sliceGet digits (m / 10) = some d1 ∧
      sliceGet digits (h % 10) = some d2 ∧ sliceGet digits (h / 10) = some d3 ∧
      Display (h * 100 + m) g = some { g with state := [d0, d1, d2, d3] }) ∧
    Display 5 g = some { g with state := [0b10110110, 0b11111100, 0b11111100, 0b11111100] } ∧
    Display 1405 g =
      some { g with state := [0b10110110, 0b11111100, 0b01100110, 0b01100000] } := by
  refine ⟨?_, ?_, ?_⟩
  · obtain ⟨e0, e1, e2, e3⟩ := clock_digits h m hh0 hh hm0 hm
    refine ⟨_, _, _, _, sliceGet_digits (m % 10) (by omega) (by omega),
      sliceGet_digits (m / 10) (by omega) (by omega),
      sliceGet_digits (h % 10) (by omega) (by omega),
      sliceGet_digits (h / 10) (by omega) (by omega), ?_⟩
    rw [Display_digits _ g hlen (by omega), e0, e1, e2, e3]
  · rw [Display_digits 5 g hlen (by decide)]; rfl
  · rw [Display_digits 1405 g hlen (by decide)]; rfl

/-- Witness for C1: 14:05 shown over stale slots. -/
theorem Display_clock_number_witness :
    (∃ d0 d1 d2 d3,
      sliceGet digits (5 % 10) = some d0 ∧ sliceGet digits (5 / 10) = some d1 ∧
      sliceGet digits (14 % 10) = some d2 ∧ sliceGet digits (14 / 10) = some d3 ∧
      Display (14 * 100 + 5) { Globals.boot with state := [1, 2, 3, 4] } =
        some { Globals.boot with state := [d0, d1, d2, d3] }) ∧
    Display 5 { Globals.boot with state := [1, 2, 3, 4] } =
      some { Globals.boot with state := [0b10110110, 0b11111100, 0b11111100, 0b11111100] } ∧
    Display 1405 { Globals.boot with state := [1, 2, 3, 4] } =
      some { Globals.boot with state := [0b10110110, 0b11111100, 0b01100110, 0b01100000] } :=
  Display_clock_number 14 5 { Globals.boot with state := [1, 2, 3, 4] }
    (by decide) (by decide) (by decide) (by decide) rfl


theorem face_fields (t : Int) (ht : 0 ≤ t) :
    (t.tdiv 3600).tmod 24 = t / 3600 % 24 ∧ (t.tdiv 60).tmod 60 = t / 60 % 60 := by
  rw [Int.tdiv_eq_ediv ht (by decide), Int.tdiv_eq_ediv ht (by decide),
    Int.tmod_eq_emod (by omega) (by decide), Int.tmod_eq_emod (by omega) (by decide)]
  exact ⟨rfl, rfl⟩

/-- The adjusted time `updateFace` works with, when the exact sum fits in an `int`. -/
theorem updateFace_when (sz : IntSize) (now offset : Int)
    (h0 : 0 ≤ now + offset) (h1 : now + offset ≤ sz.maxInt) :
    sz.wrap (sz.wrap now + offset) = now + offset := by
  rw [wrap_wrap_add]
  exact wrap_eq sz _ (by have := minInt_le sz; omega) h1

/-- C2 as stated fails where the sum leaves the range of `int`.  With a 32-bit `int`, a
clock reading of `2^31` and offset 0, the total is not negative and the claim's display
number is 314 (03:14), but `int(now)` is `-2^31`, the number handed to `Display` is
negative and the slots all show 0.  With a 64-bit `int` the same happens at the largest
`int64` reading with an offset of one minute. -/
theorem updateFace_wraps_past_maxInt :
    ((0 : Int) ≤ 2147483648 + Globals.boot.offset ∧
      (2147483648 + Globals.boot.offset) / 3600 % 24 * 100 +
        (2147483648 + Globals.boot.offset) / 60 % 60 = 314 ∧
      Display 314 Globals.boot = some { Globals.boot with state := [102, 96, 242, 252] } ∧
      updateFace .w32 2147483648 Globals.boot =
        some { Globals.boot with state := [252, 252, 252, 252] }) ∧
    ((0 : Int) ≤ 9223372036854775807 + 60 ∧
      updateFace .w64 9223372036854775807 { Globals.boot with offset := 60 } =
        some { Globals.boot with offset := 60, state := [252, 252, 252, 252] } ∧
      ∀ st, Display ((9223372036854775807 + 60) / 3600 % 24 * 100 +
          (9223372036854775807 + 60) / 60 % 60) { Globals.boot with offset := 60 } =
        some { Globals.boot with offset := 60, state := st } → st ≠ [252, 252, 252, 252]) := by
  refine ⟨⟨by decide, by decide, ?_, ?_⟩, by decide, ?_, ?_⟩
  · rw [Display_digits 314 Globals.boot rfl (by decide)]
    rfl
  · exact Display_nonpos _ Globals.boot rfl (by decide)
  · exact Display_nonpos _ { Globals.boot with offset := 60 } rfl (by decide)
  · intro st hst
    rw [Display_digits _ { Globals.boot with offset := 60 } rfl (by decide)] at hst
    simp only [Option.some.injEq, Globals.mk.injEq] at hst
    rw [← hst.1]
    decide

/-- C2, amended: when `total = now + offset` is not negative and not above the largest
`int`, `updateFace` hands `Display` the number `hour*100 + minute` with
`hour = total/3600 mod 24` and `minute = total/60 mod 60`, that number is at most 2359,
and the slots become the bitmaps of the minute's ones and tens and the hour's ones and
tens; at 13:59:59 with a zero offset the number is 1359 and the slots are the bitmaps
of `[9,5,3,1]`. -/
theorem updateFace_slots (sz : IntSize) (now : Int) (g : Globals)
    (htot : 0 ≤ now + g.offset) (hmax : now + g.offset ≤ sz.maxInt)
    (hlen : g.state.length = 4) :
    updateFace sz now g =
      Display ((now + g.offset) / 3600 % 24 * 100 + (now + g.offset) / 60 % 60) g ∧
    0 ≤ (now + g.offset) / 3600 % 24 * 100 + (now + g.offset) / 60 % 60 ∧
    (now + g.offset) / 3600 % 24 * 100 + (now + g.offset) / 60 % 60 ≤ 2359 ∧
    (∃ d0 d1 d2 d3,
      sliceGet digits ((now + g.offset) / 60 % 60 % 10) = some d0 ∧
      sliceGet digits ((now + g.offset) / 60 % 60 / 10) = some d1 ∧
      sliceGet digits ((now + g.offset) / 3600 % 24 % 10) = some d2 ∧
      sliceGet digits ((now + g.offset) / 3600 % 24 / 10) = some d3 ∧
      updateFace sz now g = some { g with state := [d0, d1, d2, d3] }) ∧
    (g.offset = 0 → now % 86400 = 13 * 3600 + 59 * 60 + 59 →
      (now + g.offset) / 3600 % 24 * 100 + (now + g.offset) / 60 % 60 = 1359 ∧
      updateFace sz now g =
        some { g with state := [0b11100110, 0b10110110, 0b11110010, 0b01100000] }) := by
  obtain ⟨eh, em⟩ := face_fields (now + g.offset) htot
  have hface : updateFace sz now g =
      Display ((now + g.offset) / 3600 % 24 * 100 + (now + g.offset) / 60 % 60) g := by
    simp only [updateFace, updateFace_when sz now g.offset htot hmax, eh, em]
  have hh0 : 0 ≤ (now + g.offset) / 3600 % 24 := by omega
  have hh : (now + g.offset) / 3600 % 24 < 24 := by omega
  have hm0 : 0 ≤ (now + g.offset) / 60 % 60 := by omega
  have hm : (now + g.offset) / 60 % 60 < 60 := by omega
  obtain ⟨e0, e1, e2, e3⟩ := clock_digits _ _ hh0 hh hm0 hm
  have hdisp := Display_digits
    ((now + g.offset) / 3600 % 24 * 100 + (now + g.offset) / 60 % 60) g hlen (by omega)
  rw [e0, e1, e2, e3] at hdisp
  refine ⟨hface, by omega, by omega, ?_, ?_⟩
  · exact ⟨_, _, _, _, sliceGet_digits _ (by omega) (by omega),
      sliceGet_digits _ (by omega) (by omega), sliceGet_digits _ (by omega) (by omega),
      sliceGet_digits _ (by omega) (by omega), hface.trans hdisp⟩
  · intro ho hn
    have h1 : (now + g.offset) / 3600 % 24 = 13 := by omega
    have h2 : (now + g.offset) / 60 % 60 = 59 := by omega
    refine ⟨by omega, ?_⟩
    rw [hface, hdisp, h1, h2]
    rfl

/-- Witness for C2, amended: the wall clock reads 13:59:59 on the second day and the
offset is 0, on a 32-bit `int`. -/
theorem updateFace_slots_witness :
    updateFace .w32 136799 Globals.boot =
      Display ((136799 + Globals.boot.offset) / 3600 % 24 * 100 +
        (136799 + Globals.boot.offset) / 60 % 60) Globals.boot ∧
    0 ≤ (136799 + Globals.boot.offset) / 3600 % 24 * 100 +
      (136799 + Globals.boot.offset) / 60 % 60 ∧
    (136799 + Globals.boot.offset) / 3600 % 24 * 100 +
      (136799 + Globals.boot.offset) / 60 % 60 ≤ 2359 ∧
    (∃ d0 d1 d2 d3,
      sliceGet digits ((136799 + Globals.boot.offset) / 60 % 60 % 10) = some d0 ∧
      sliceGet digits ((136799 + Globals.boot.offset) / 60 % 60 / 10) = some d1 ∧
      sliceGet digits ((136799 + Globals.boot.offset) / 3600 % 24 % 10) = some d2 ∧
      sliceGet digits ((136799 + Globals.boot.offset) / 3600 % 24 / 10) = some d3 ∧
      updateFace .w32 136799 Globals.boot = some { Globals.boot with state := [d0, d1, d2, d3] }) ∧
    ((136799 + Globals.boot.offset) / 3600 % 24 * 100 +
        (136799 + Globals.boot.offset) / 60 % 60 = 1359 ∧
      updateFace .w32 136799 Globals.boot =
        some { Globals.boot with
          state := [0b11100110, 0b10110110, 0b11110010, 0b01100000] }) :=
  have t := updateFace_slots .w32 136799 Globals.boot (by decide) (by decide) rfl
  ⟨t.1, t.2.1, t.2.2.1, t.2.2.2.1, t.2.2.2.2 rfl (by decide)⟩


/-! ## Buttons: one sampling tick -/

theorem small_in_range (sz : IntSize) (x : Int) (h1 : -2147483648 ≤ x) (h2 : x ≤ 2147483647) :
    sz.minInt ≤ x ∧ x ≤ sz.maxInt :=
  ⟨le_trans (minInt_le sz) h1, le_trans h2 (maxInt_ge sz)⟩

/-- An active tick, with the increment as Go stores it. -/
theorem updateState_active_wrap (sz : IntSize) (b : button) (dots : List Nat)
    (hi0 : 0 ≤ b.index) (hi : b.index < dots.length) :
    b.updateState sz true dots =
      some ({ b with pressed := decide (b.dwell = 0), dwell := sz.wrap (b.dwell + 1) },
        dots.set b.index.toNat 1) := by
  simp [button.updateState, sliceSet, hi0, hi]

/-- An active tick whose increment stays inside the range of `int`. -/
theorem updateState_active (sz : IntSize) (b : button) (dots : List Nat)
    (hi0 : 0 ≤ b.index) (hi : b.index < dots.length)
    (hlo : sz.minInt ≤ b.dwell + 1) (hhi : b.dwell + 1 ≤ sz.maxInt) :
    b.updateState sz true dots =
      some ({ b with pressed := decide (b.dwell = 0), dwell := b.dwell + 1 },
        dots.set b.index.toNat 1) := by
  rw [updateState_active_wrap sz b dots hi0 hi, wrap_eq sz _ hlo hhi]

theorem updateState_inactive (sz : IntSize) (b : button) (dots : List Nat)
    (hi0 : 0 ≤ b.index) (hi : b.index < dots.length) :
    b.updateState sz false dots =
      some ({ b with dwell := 0, pressed := false }, dots.set b.index.toNat 0) := by
  simp [button.updateState, sliceSet, hi0, hi]

theorem run_nil {sz : IntSize} (b : button) (dots : List Nat) :
    button.run sz [] b dots = some ([], b, dots) :=
  rfl

theorem run_cons {sz : IntSize} (a : Bool) (as : List Bool) (b b1 b2 : button)
    (dots dots1 dots2 : List Nat)
    (cs : List Int) (h1 : b.updateState sz a dots = some (b1, dots1))
    (h2 : button.run sz as b1 dots1 = some (cs, b2, dots2)) :
    button.run sz (a :: as) b dots = some (b1.state :: cs, b2, dots2) := by
  simp only [button.run, h1, h2]

theorem run_append {sz : IntSize} (xs ys : List Bool) (b b1 b2 : button)
    (dots dots1 dots2 : List Nat)
    (cs ds : List Int) (h1 : button.run sz xs b dots = some (cs, b1, dots1))
    (h2 : button.run sz ys b1 dots1 = some (ds, b2, dots2)) :
    button.run sz (xs ++ ys) b dots = some (cs ++ ds, b2, dots2) := by
  induction xs generalizing b dots cs with
  | nil =>
    simp only [button.run, Option.some.injEq, Prod.mk.injEq] at h1
    obtain ⟨rfl, rfl, rfl⟩ := h1
    simpa using h2
  | cons a as ih =>
    simp only [button.run] at h1
    cases hu : b.updateState sz a dots with
    | none => simp [hu] at h1
    | some p =>
      obtain ⟨b', dots'⟩ := p
      simp only [hu] at h1
      cases hr : button.run sz as b' dots' with
      | none => simp [hr] at h1
      | some q =>
        obtain ⟨cs', b'', dots''⟩ := q
        simp only [hr, Option.some.injEq, Prod.mk.injEq] at h1
        obtain ⟨rfl, rfl, rfl⟩ := h1
        have := ih b' dots' cs' hr
        exact run_cons a (as ++ ys) b b' b2 dots dots' dots2 (cs' ++ ds) hu this

/-- Ticks 2 to 50 of a continuous press: the button stays Off while dwell climbs. -/
theorem run_gap (sz : IntSize) (n : Nat) (b : button) (dots : List Nat)
    (hi0 : 0 ≤ b.index) (hi : b.index < dots.length)
    (hd : 1 ≤ b.dwell) (hn : b.dwell + n ≤ 50) :
    ∃ b' dots', button.run sz (List.replicate n true) b dots =
        some (List.replicate n ButtonOff, b', dots') ∧
      b'.dwell = b.dwell + n ∧ b'.index = b.index ∧ dots'.length = dots.length := by
  induction n generalizing b dots with
  | zero => exact ⟨b, dots, rfl, by simp, rfl, rfl⟩
  | succ k ih =>
    obtain ⟨hlo, hhi⟩ := small_in_range sz (b.dwell + 1) (by omega)
      (by push_cast at hn; omega)
    have hu := updateState_active sz b dots hi0 hi hlo hhi
    obtain ⟨b', dots', hr, hdw, hix, hln⟩ :=
      ih { b with pressed := decide (b.dwell = 0), dwell := b.dwell + 1 }
        (dots.set b.index.toNat 1) hi0 (by simpa using hi) (by show 1 ≤ b.dwell + 1; omega)
        (by show b.dwell + 1 + (k : Int) ≤ 50; push_cast at hn; omega)
    refine ⟨b', dots', ?_, ?_, hix, by simpa using hln⟩
    · rw [List.replicate_succ, run_cons _ _ _ _ _ _ _ _ _ hu hr, List.replicate_succ]
      have hs : button.state { b with pressed := decide (b.dwell = 0), dwell := b.dwell + 1 }
          = ButtonOff := by
        have h0 : ¬ b.dwell = 0 := by omega
        have h1 : ¬ b.dwell + 1 > 50 := by push_cast at hn; omega
        simp [button.state, h0, h1]
      rw [hs]
    · rw [hdw]; push_cast; show b.dwell + 1 + (k : Int) = _; omega

/-- From dwell 50 on, every further active tick is classified Held, as long as dwell
stays inside the range of `int`. -/
theorem run_held (sz : IntSize) (n : Nat) (b : button) (dots : List Nat)
    (hi0 : 0 ≤ b.index) (hi : b.index < dots.length) (hd : 50 ≤ b.dwell)
    (hmax : b.dwell + n ≤ sz.maxInt) :
    ∃ b' dots', button.run sz (List.replicate n true) b dots =
        some (List.replicate n ButtonHeld, b', dots') ∧
      b'.dwell = b.dwell + n ∧ b'.index = b.index ∧ dots'.length = dots.length := by
  induction n generalizing b dots with
  | zero => exact ⟨b, dots, rfl, by simp, rfl, rfl⟩
  | succ k ih =>
    have hlo : sz.minInt ≤ b.dwell + 1 := by have := minInt_le sz; omega
    have hhi : b.dwell + 1 ≤ sz.maxInt := by push_cast at hmax; omega
    have hu := updateState_active sz b dots hi0 hi hlo hhi
    obtain ⟨b', dots', hr, hdw, hix, hln⟩ :=
      ih { b with pressed := decide (b.dwell = 0), dwell := b.dwell + 1 }
        (dots.set b.index.toNat 1) hi0 (by simpa using hi) (by show 50 ≤ b.dwell + 1; omega)
        (by show b.dwell + 1 + (k : Int) ≤ sz.maxInt; push_cast at hmax; omega)
    refine ⟨b', dots', ?_, ?_, hix, by simpa using hln⟩
    · rw [List.replicate_succ, run_cons _ _ _ _ _ _ _ _ _ hu hr, List.replicate_succ]
      have hs : button.state { b with pressed := decide (b.dwell = 0), dwell := b.dwell + 1 }
          = ButtonHeld := by
        have h0 : ¬ b.dwell = 0 := by omega
        have h1 : b.dwell + 1 > 50 := by omega
        simp [button.state, h0, h1]
      rw [hs]
    · rw [hdw]; push_cast; show b.dwell + 1 + (k : Int) = _; omega

/-- A continuous press of `N > 50` ticks from rest that stays inside the range of `int`:
the classifications, and the dwell it ends with. -/
theorem run_from_rest (sz : IntSize) (N : Nat) (b : button) (dots : List Nat)
    (hN : 50 < N) (hmax : (N : Int) ≤ sz.maxInt) (hd : b.dwell = 0)
    (hi0 : 0 ≤ b.index) (hi : b.index < dots.length) :
    ∃ b' dots', button.run sz (List.replicate N true) b dots =
        some (ButtonPressed ::
          (List.replicate 49 ButtonOff ++ List.replicate (N - 50) ButtonHeld), b', dots') ∧
      b'.dwell = N ∧ b'.index = b.index ∧ dots'.length = dots.length := by
  obtain ⟨hlo, hhi⟩ := small_in_range sz (b.dwell + 1) (by omega) (by omega)
  have hu := updateState_active sz b dots hi0 hi hlo hhi
  obtain ⟨b2, dots2, hr2, hdw, hix, hln⟩ :=
    run_gap sz 49 { b with pressed := decide (b.dwell = 0), dwell := b.dwell + 1 }
      (dots.set b.index.toNat 1) hi0 (by simpa using hi)
      (by show 1 ≤ b.dwell + 1; omega) (by show b.dwell + 1 + ((49 : Nat) : Int) ≤ 50; omega)
  have hdw2 : b2.dwell = 50 := by
    rw [hdw]; show b.dwell + 1 + ((49 : Nat) : Int) = 50; omega
  obtain ⟨b3, dots3, hr3, hdw3, hix3, hln3⟩ := run_held sz (N - 50) b2 dots2
    (by rw [hix]; exact hi0) (by rw [hix, hln]; simpa using hi) (by omega)
    (by rw [hdw2]; omega)
  refine ⟨b3, dots3, ?_, by rw [hdw3, hdw2]; omega, by rw [hix3, hix],
    by rw [hln3, hln]; simp⟩
  have hsplit : List.replicate N true =
      true :: (List.replicate 49 true ++ List.replicate (N - 50) true) := by
    rw [← List.replicate_add, ← List.replicate_succ]
    congr 1
    omega
  rw [hsplit, run_cons _ _ _ _ _ _ _ _ _ hu (run_append _ _ _ _ _ _ _ _ _ _ hr2 hr3)]
  have hs : button.state { b with pressed := decide (b.dwell = 0), dwell := b.dwell + 1 }
      = ButtonPressed := by
    simp [button.state, hd]
  rw [hs]

/-- A continuous press from rest that lasts one tick more than the largest `int`: on the
last tick the increment wraps, dwell becomes the smallest `int` and the button is
classified Off. -/
theorem run_past_maxInt (sz : IntSize) (N : Nat) (b : button) (dots : List Nat)
    (hN : (N : Int) = sz.maxInt) (hd : b.dwell = 0)
    (hi0 : 0 ≤ b.index) (hi : b.index < dots.length) :
    ∃ b' dots', button.run sz (List.replicate (N + 1) true) b dots =
        some ((ButtonPressed ::
          (List.replicate 49 ButtonOff ++ List.replicate (N - 50) ButtonHeld)) ++ [ButtonOff],
          b', dots') ∧
      b'.dwell = sz.minInt ∧ b'.state = ButtonOff := by
  have h50 : 50 < N := by have := maxInt_ge sz; omega
  obtain ⟨b1, dots1, hr1, hdw1, hix1, hln1⟩ :=
    run_from_rest sz N b dots h50 (le_of_eq hN) hd hi0 hi
  have hu := updateState_active_wrap sz b1 dots1 (by rw [hix1]; exact hi0)
    (by rw [hix1, hln1]; exact hi)
  have hdw : sz.wrap (b1.dwell + 1) = sz.minInt := by
    rw [hdw1, hN]; exact wrap_succ_maxInt sz
  have hne : ¬ b1.dwell = 0 := by rw [hdw1]; omega
  have hneg : ¬ sz.minInt > 50 := by have := minInt_le sz; omega
  have hlast := run_cons true [] _ _ _ _ _ _ [] hu (run_nil _ _)
  have hs : button.state
      { b1 with pressed := decide (b1.dwell = 0), dwell := sz.wrap (b1.dwell + 1) }
      = ButtonOff := by
    simp [button.state, hne, hdw, hneg]
  rw [hs] at hlast
  refine ⟨{ b1 with pressed := decide (b1.dwell = 0), dwell := sz.wrap (b1.dwell + 1) },
    dots1.set b1.index.toNat 1, ?_, hdw, hs⟩
  rw [List.replicate_succ']
  exact run_append _ _ _ _ _ _ _ _ _ _ hr1 hlast

/-- C3 as stated fails once the press outlasts the range of `int`.  With a 32-bit `int`
and `N = 2^31 > 50` active ticks from rest, ticks 51 to `2^31 - 1` are Held but the
increment on tick `2^31` wraps: dwell becomes `-2^31` and that tick is classified Off,
not Held. -/
theorem continuous_press_wraps :
    ∃ b' dots', button.run .w32 (List.replicate (2147483647 + 1) true)
        { index := 0, pin := 16, dwell := 0, pressed := false } [0, 0, 0, 0] =
        some ((ButtonPressed ::
          (List.replicate 49 ButtonOff ++ List.replicate (2147483647 - 50) ButtonHeld)) ++
            [ButtonOff], b', dots') ∧
      b'.dwell = -2147483648 ∧ b'.state = ButtonOff ∧ ButtonOff ≠ ButtonHeld := by
  obtain ⟨b', dots', hr, hdw, hst⟩ := run_past_maxInt .w32 2147483647
    { index := 0, pin := 16, dwell := 0, pressed := false } [0, 0, 0, 0]
    (by decide) rfl (by decide) (by decide)
  have hdw' : b'.dwell = -2147483648 := by rw [hdw]; decide
  exact ⟨b', dots', hr, hdw', hst, by decide⟩

/-- C3, amended: a button at rest (dwell 0; the pressed flag is overwritten by the first
tick, so it is left free) whose input then reads active on `N` consecutive ticks, with
`50 < N` and `N` not above the largest `int`, is classified Pressed on tick 1, Off on
ticks 2 to 50 and Held on ticks 51 to `N`; Pressed occurs on no tick after the
first. -/
theorem continuous_press_classification (sz : IntSize) (N : Nat) (b : button)
    (dots : List Nat) (hN : 50 < N) (hmax : (N : Int) ≤ sz.maxInt) (hd : b.dwell = 0)
    (hi0 : 0 ≤ b.index) (hi : b.index < dots.length) :
    (∃ b' dots', button.run sz (List.replicate N true) b dots =
      some (ButtonPressed ::
        (List.replicate 49 ButtonOff ++ List.replicate (N - 50) ButtonHeld), b', dots')) ∧
    ButtonPressed ∉ List.replicate 49 ButtonOff ++ List.replicate (N - 50) ButtonHeld := by
  constructor
  · obtain ⟨b', dots', hr, _⟩ := run_from_rest sz N b dots hN hmax hd hi0 hi
    exact ⟨b', dots', hr⟩
  · simp [List.mem_append, List.mem_replicate, ButtonPressed, ButtonOff, ButtonHeld]

/-- Witness for C3, amended: button 0 of the booted clock, held for 60 ticks. -/
theorem continuous_press_classification_witness :
    (∃ b' dots', button.run .w32 (List.replicate 60 true)
        { index := 0, pin := 16, dwell := 0, pressed := false } [0, 0, 0, 0] =
      some (ButtonPressed ::
        (List.replicate 49 ButtonOff ++ List.replicate (60 - 50) ButtonHeld), b', dots')) ∧
    ButtonPressed ∉ List.replicate 49 ButtonOff ++ List.replicate (60 - 50) ButtonHeld :=
  continuous_press_classification .w32 60
    { index := 0, pin := 16, dwell := 0, pressed := false }
    [0, 0, 0, 0] (by decide) (by decide) rfl (by decide) (by decide)

/-- C4 as stated fails at the threshold: with dwell 50 before the tick, an active
reading leaves dwell 51 and the button is classified Held, not Off, whatever the size
of `int`. -/
theorem threshold_tick_is_held :
    (∃ b' dots', button.updateState .w32 true
        { index := 0, pin := 16, dwell := 50, pressed := false } [0, 0, 0, 0] =
      some (b', dots') ∧
    b'.dwell = 51 ∧ b'.pressed = false ∧ b'.state = ButtonHeld ∧ b'.state ≠ ButtonOff) ∧
    (∃ b' dots', button.updateState .w64 true
        { index := 0, pin := 16, dwell := 50, pressed := false } [0, 0, 0, 0] =
      some (b', dots') ∧
    b'.dwell = 51 ∧ b'.pressed = false ∧ b'.state = ButtonHeld ∧ b'.state ≠ ButtonOff) :=
  ⟨⟨{ index := 0, pin := 16, dwell := 51, pressed := false }, [1, 0, 0, 0],
    by decide, by decide, by decide, by decide, by decide⟩,
   ⟨{ index := 0, pin := 16, dwell := 51, pressed := false }, [1, 0, 0, 0],
    by decide, by decide, by decide, by decide, by decide⟩⟩

/-- C4, amended: with dwell `d` in `[1, 50]` before the tick and an active reading, the
tick leaves dwell `d + 1` and pressed false; the button is classified Off when
`d ≤ 49` and Held when `d = 50` (the tick that takes dwell past the threshold). -/
theorem gap_tick (sz : IntSize) (d : Int) (b : button) (dots : List Nat)
    (hd1 : 1 ≤ d) (hd50 : d ≤ 50) (hd : b.dwell = d)
    (hi0 : 0 ≤ b.index) (hi : b.index < dots.length) :
    ∃ b' dots', b.updateState sz true dots = some (b', dots') ∧
      b'.dwell = d + 1 ∧ b'.pressed = false ∧
      b'.state = (if d ≤ 49 then ButtonOff else ButtonHeld) := by
  obtain ⟨hlo, hhi⟩ := small_in_range sz (b.dwell + 1) (by omega) (by omega)
  refine ⟨_, _, updateState_active sz b dots hi0 hi hlo hhi, by simp [hd], ?_, ?_⟩
  · have : ¬ b.dwell = 0 := by omega
    simp [this]
  · have h0 : ¬ b.dwell = 0 := by omega
    by_cases h : d ≤ 49
    · have h1 : ¬ b.dwell + 1 > 50 := by omega
      simp [button.state, h0, h1, h]
    · have h1 : b.dwell + 1 > 50 := by omega
      simp [button.state, h0, h1, h]

/-- Witness for C4, amended: dwell 49 before the tick. -/
theorem gap_tick_witness :
    ∃ b' dots', button.updateState .w32 true
        { index := 1, pin := 17, dwell := 49, pressed := false } [0, 0, 0, 0] =
      some (b', dots') ∧
      b'.dwell = 49 + 1 ∧ b'.pressed = false ∧
      b'.state = (if (49 : Int) ≤ 49 then ButtonOff else ButtonHeld) :=
  gap_tick .w32 49 { index := 1, pin := 17, dwell := 49, pressed := false } [0, 0, 0, 0]
    (by decide) (by decide) rfl (by decide) (by decide)

/-- C5: for a button with dwell 0, a reading that is active on one tick and inactive on
the next is classified Pressed on the first tick and Off on the second, which leaves
dwell 0 and pressed false; neither tick is classified Held. -/
theorem single_pulse (sz : IntSize) (b : button) (dots : List Nat) (hd : b.dwell = 0)
    (hi0 : 0 ≤ b.index) (hi : b.index < dots.length) :
    ∃ b' dots', button.run sz [true, false] b dots =
        some ([ButtonPressed, ButtonOff], b', dots') ∧
      b'.dwell = 0 ∧ b'.pressed = false ∧ ButtonHeld ∉ [ButtonPressed, ButtonOff] := by
  obtain ⟨hlo, hhi⟩ := small_in_range sz (b.dwell + 1) (by omega) (by omega)
  have hu1 := updateState_active sz b dots hi0 hi hlo hhi
  have hu2 := updateState_inactive sz
    { b with pressed := decide (b.dwell = 0), dwell := b.dwell + 1 }
    (dots.set b.index.toNat 1) hi0 (by simpa using hi)
  have hrun := run_cons _ _ _ _ _ _ _ _ _ hu1
    (run_cons false [] _ _ _ _ _ _ [] hu2 (run_nil _ _))
  refine ⟨{ index := b.index, pin := b.pin, dwell := 0, pressed := false },
    (dots.set b.index.toNat 1).set b.index.toNat 0, ?_, rfl, rfl, by decide⟩
  rw [hrun]
  simp [button.state, hd, ButtonOff]

/-- Witness for C5: button 1 of the booted clock. -/
theorem single_pulse_witness :
    ∃ b' dots', button.run .w32 [true, false]
        { index := 1, pin := 17, dwell := 0, pressed := false } [0, 0, 0, 0] =
        some ([ButtonPressed, ButtonOff], b', dots') ∧
      b'.dwell = 0 ∧ b'.pressed = false ∧ ButtonHeld ∉ [ButtonPressed, ButtonOff] :=
  single_pulse .w32 { index := 1, pin := 17, dwell := 0, pressed := false } [0, 0, 0, 0]
    rfl (by decide) (by decide)


/-! ## Adjusting the time: one call of `updateTime` -/

theorem setOffset_total (sz : IntSize) (now hour minute : Int) (g : Globals) (hlen : g.state.length = 4) :
    ∃ st, st.length = 4 ∧
      setOffset sz now hour minute g =
        some { g with state := st, offset := hour * 3600 + minute * 60 } := by
  obtain ⟨st, hst, hf⟩ :=
    updateFace_total sz now { g with offset := hour * 3600 + minute * 60 } hlen
  exact ⟨st, hst, hf⟩

/-- When neither button fires, `updateTime` returns the variables untouched. -/
theorem updateTime_idle (sz : IntSize) (now0 now1 : Int) (g : Globals) (b0 b1 : button)
    (h0 : sliceGet g.buttons 0 = some b0) (h1 : sliceGet g.buttons 1 = some b1)
    (hs0 : ¬ (b0.state = ButtonPressed ∨ b0.state = ButtonHeld))
    (hs1 : b1.state ≠ ButtonPressed) :
    updateTime sz now0 now1 g = some g := by
  simp only [updateTime, h0, hs0, if_false, h1, hs1]

/-- One call of `updateTime` succeeds, keeps four slots, and leaves `nextOffset`. -/
theorem updateTime_spec (sz : IntSize) (now0 now1 : Int) (g : Globals) (b0 b1 : button)
    (hlen : g.state.length = 4)
    (h0 : sliceGet g.buttons 0 = some b0) (h1 : sliceGet g.buttons 1 = some b1) :
    ∃ st, st.length = 4 ∧
      updateTime sz now0 now1 g =
        some { g with state := st, offset := nextOffset b0.state b1.state g.offset } := by
  by_cases hs0 : b0.state = ButtonPressed ∨ b0.state = ButtonHeld
  · obtain ⟨st0, hst0, hf0⟩ := setOffset_total sz now0 ((g.offset.tdiv 3600).tmod 24)
      (if (g.offset.tdiv 60).tmod 60 + 1 > 59 then 0 else (g.offset.tdiv 60).tmod 60 + 1)
      g hlen
    by_cases hs1 : b1.state = ButtonPressed
    · obtain ⟨st1, hst1, hf1⟩ := setOffset_total sz now1
        (if (g.offset.tdiv 3600).tmod 24 + 1 > 23 then 0 else (g.offset.tdiv 3600).tmod 24 + 1)
        (if (g.offset.tdiv 60).tmod 60 + 1 > 59 then 0 else (g.offset.tdiv 60).tmod 60 + 1)
        { g with state := st0, offset := (g.offset.tdiv 3600).tmod 24 * 3600 +
          (if (g.offset.tdiv 60).tmod 60 + 1 > 59 then 0
            else (g.offset.tdiv 60).tmod 60 + 1) * 60 } hst0
      refine ⟨st1, hst1, ?_⟩
      simp only [updateTime, h0, hs0, if_true, hf0, Option.map_some', h1, hs1, hf1, nextOffset]
    · refine ⟨st0, hst0, ?_⟩
      simp only [updateTime, h0, hs0, if_true, hf0, Option.map_some', h1, hs1, if_false,
        nextOffset]
  · by_cases hs1 : b1.state = ButtonPressed
    · obtain ⟨st1, hst1, hf1⟩ := setOffset_total sz now1
        (if (g.offset.tdiv 3600).tmod 24 + 1 > 23 then 0 else (g.offset.tdiv 3600).tmod 24 + 1)
        ((g.offset.tdiv 60).tmod 60) g hlen
      refine ⟨st1, hst1, ?_⟩
      simp only [updateTime, h0, hs0, if_false, h1, hs1, if_true, hf1, nextOffset]
    · refine ⟨g.state, hlen, ?_⟩
      rw [updateTime_idle sz now0 now1 g b0 b1 h0 h1 hs0 hs1]
      simp only [nextOffset, hs0, hs1, if_false]

/-- The fields `updateTime` reads back from a normalized offset. -/
theorem offset_fields (h m : Int) (hh0 : 0 ≤ h) (hh : h < 24) (hm0 : 0 ≤ m) (hm : m < 60) :
    ((h * 3600 + m * 60).tdiv 3600).tmod 24 = h ∧
    ((h * 3600 + m * 60).tdiv 60).tmod 60 = m := by
  obtain ⟨e1, e2⟩ := face_fields (h * 3600 + m * 60) (by omega)
  rw [e1, e2]
  omega


theorem nextOffset_minute (s0 s1 h m : Int) (hh0 : 0 ≤ h) (hh : h < 24) (hm0 : 0 ≤ m)
    (hm : m < 60) (hs0 : s0 = ButtonPressed ∨ s0 = ButtonHeld) (hs1 : s1 ≠ ButtonPressed) :
    nextOffset s0 s1 (h * 3600 + m * 60) = h * 3600 + (m + 1) % 60 * 60 := by
  obtain ⟨e1, e2⟩ := offset_fields h m hh0 hh hm0 hm
  simp only [nextOffset, e1, e2, hs0, hs1, if_true, if_false]
  split <;> omega

theorem nextOffset_hour (s0 s1 h m : Int) (hh0 : 0 ≤ h) (hh : h < 24) (hm0 : 0 ≤ m)
    (hm : m < 60) (hs0 : ¬ (s0 = ButtonPressed ∨ s0 = ButtonHeld)) (hs1 : s1 = ButtonPressed) :
    nextOffset s0 s1 (h * 3600 + m * 60) = (h + 1) % 24 * 3600 + m * 60 := by
  obtain ⟨e1, e2⟩ := offset_fields h m hh0 hh hm0 hm
  simp only [nextOffset, e1, e2, hs0, hs1, if_true, if_false]
  split <;> omega

/-- C6: from `offset = h*3600 + m*60` with `h` in `[0,24)` and `m` in `[0,60)`, a call
of `updateTime` with button 0 Pressed or Held and button 1 not Pressed succeeds and
sets the offset to `h*3600 + ((m+1) mod 60)*60`: the hour read back is `h`, the minute
read back is `(m+1) mod 60`, the seconds are 0, and from minute 59 the offset is
`h*3600` (no carry); a second such call gives `h*3600 + ((m+2) mod 60)*60`, which
from minute 59 is minute 1. -/
theorem updateTime_minute_step (sz : IntSize) (h m now0 now1 : Int) (g : Globals) (b0 b1 : button)
    (hh0 : 0 ≤ h) (hh : h < 24) (hm0 : 0 ≤ m) (hm : m < 60)
    (ho : g.offset = h * 3600 + m * 60) (hlen : g.state.length = 4)
    (h0 : sliceGet g.buttons 0 = some b0) (h1 : sliceGet g.buttons 1 = some b1)
    (hs0 : b0.state = ButtonPressed ∨ b0.state = ButtonHeld)
    (hs1 : b1.state ≠ ButtonPressed) :
    ∃ g', updateTime sz now0 now1 g = some g' ∧
      g'.offset = h * 3600 + (m + 1) % 60 * 60 ∧
      (g'.offset.tdiv 3600).tmod 24 = h ∧
      (g'.offset.tdiv 60).tmod 60 = (m + 1) % 60 ∧
      g'.offset % 60 = 0 ∧
      (m = 59 → g'.offset = h * 3600) ∧
      ∃ g'', updateTime sz now0 now1 g' = some g'' ∧
        g''.offset = h * 3600 + (m + 2) % 60 * 60 ∧
        (m = 59 → g''.offset = h * 3600 + 1 * 60) := by
  obtain ⟨st, hst, hu⟩ := updateTime_spec sz now0 now1 g b0 b1 hlen h0 h1
  rw [ho, nextOffset_minute _ _ h m hh0 hh hm0 hm hs0 hs1] at hu
  obtain ⟨e1, e2⟩ := offset_fields h ((m + 1) % 60) hh0 hh (by omega) (by omega)
  obtain ⟨st2, _, hu2⟩ := updateTime_spec sz now0 now1
    { g with state := st, offset := h * 3600 + (m + 1) % 60 * 60 } b0 b1 hst h0 h1
  rw [nextOffset_minute _ _ h ((m + 1) % 60) hh0 hh (by omega) (by omega) hs0 hs1] at hu2
  refine ⟨_, hu, rfl, e1, e2, by show (h * 3600 + (m + 1) % 60 * 60) % 60 = 0; omega,
    by intro h59; show h * 3600 + (m + 1) % 60 * 60 = h * 3600; omega, _, hu2, ?_, ?_⟩
  · show h * 3600 + ((m + 1) % 60 + 1) % 60 * 60 = h * 3600 + (m + 2) % 60 * 60
    omega
  · intro h59
    show h * 3600 + ((m + 1) % 60 + 1) % 60 * 60 = h * 3600 + 1 * 60
    omega

/-- Witness for C6: button 0 held at 07:59. -/
theorem updateTime_minute_step_witness :
    ∃ g', updateTime .w32 0 0
        { state := [0, 0, 0, 0], dots := [1, 0, 0, 0],
          buttons := [{ index := 0, pin := 16, dwell := 51, pressed := false },
                      { index := 1, pin := 17, dwell := 0, pressed := false }],
          offset := 7 * 3600 + 59 * 60 } = some g' ∧
      g'.offset = 7 * 3600 + (59 + 1) % 60 * 60 ∧
      (g'.offset.tdiv 3600).tmod 24 = 7 ∧
      (g'.offset.tdiv 60).tmod 60 = (59 + 1) % 60 ∧
      g'.offset % 60 = 0 ∧
      ((59 : Int) = 59 → g'.offset = 7 * 3600) ∧
      ∃ g'', updateTime .w32 0 0 g' = some g'' ∧
        g''.offset = 7 * 3600 + (59 + 2) % 60 * 60 ∧
        ((59 : Int) = 59 → g''.offset = 7 * 3600 + 1 * 60) :=
  updateTime_minute_step .w32 7 59 0 0
    { state := [0, 0, 0, 0], dots := [1, 0, 0, 0],
      buttons := [{ index := 0, pin := 16, dwell := 51, pressed := false },
                  { index := 1, pin := 17, dwell := 0, pressed := false }],
      offset := 7 * 3600 + 59 * 60 }
    { index := 0, pin := 16, dwell := 51, pressed := false }
    { index := 1, pin := 17, dwell := 0, pressed := false }
    (by decide) (by decide) (by decide) (by decide) rfl rfl rfl rfl
    (Or.inr (by decide)) (by decide)

/-- C7: from `offset = h*3600 + m*60` with `h` in `[0,24)` and `m` in `[0,60)`, a call
of `updateTime` with button 1 Pressed and button 0 Off succeeds and sets the offset to
`((h+1) mod 24)*3600 + m*60`: the hour read back is `(h+1) mod 24` (0 after 23) and
the minute read back is `m`. -/
theorem updateTime_hour_step (sz : IntSize) (h m now0 now1 : Int) (g : Globals) (b0 b1 : button)
    (hh0 : 0 ≤ h) (hh : h < 24) (hm0 : 0 ≤ m) (hm : m < 60)
    (ho : g.offset = h * 3600 + m * 60) (hlen : g.state.length = 4)
    (h0 : sliceGet g.buttons 0 = some b0) (h1 : sliceGet g.buttons 1 = some b1)
    (hs0 : b0.state = ButtonOff) (hs1 : b1.state = ButtonPressed) :
    ∃ g', updateTime sz now0 now1 g = some g' ∧
      g'.offset = (h + 1) % 24 * 3600 + m * 60 ∧
      (g'.offset.tdiv 3600).tmod 24 = (h + 1) % 24 ∧
      (g'.offset.tdiv 60).tmod 60 = m ∧
      (h = 23 → g'.offset = m * 60) := by
  obtain ⟨st, _, hu⟩ := updateTime_spec sz now0 now1 g b0 b1 hlen h0 h1
  have hoff : ¬ (b0.state = ButtonPressed ∨ b0.state = ButtonHeld) := by
    rw [hs0]; decide
  rw [ho, nextOffset_hour _ _ h m hh0 hh hm0 hm hoff hs1] at hu
  obtain ⟨e1, e2⟩ := offset_fields ((h + 1) % 24) m (by omega) (by omega) hm0 hm
  exact ⟨_, hu, rfl, e1, e2,
    by intro h23; show (h + 1) % 24 * 3600 + m * 60 = m * 60; omega⟩

/-- Witness for C7: button 1 pressed at 23:30. -/
theorem updateTime_hour_step_witness :
    ∃ g', updateTime .w32 0 0
        { state := [0, 0, 0, 0], dots := [0, 1, 0, 0],
          buttons := [{ index := 0, pin := 16, dwell := 0, pressed := false },
                      { index := 1, pin := 17, dwell := 1, pressed := true }],
          offset := 23 * 3600 + 30 * 60 } = some g' ∧
      g'.offset = (23 + 1) % 24 * 3600 + 30 * 60 ∧
      (g'.offset.tdiv 3600).tmod 24 = (23 + 1) % 24 ∧
      (g'.offset.tdiv 60).tmod 60 = 30 ∧
      ((23 : Int) = 23 → g'.offset = 30 * 60) :=
  updateTime_hour_step .w32 23 30 0 0
    { state := [0, 0, 0, 0], dots := [0, 1, 0, 0],
      buttons := [{ index := 0, pin := 16, dwell := 0, pressed := false },
                  { index := 1, pin := 17, dwell := 1, pressed := true }],
      offset := 23 * 3600 + 30 * 60 }
    { index := 0, pin := 16, dwell := 0, pressed := false }
    { index := 1, pin := 17, dwell := 1, pressed := true }
    (by decide) (by decide) (by decide) (by decide) rfl rfl rfl rfl
    (by decide) (by decide)

/-! ## Adjusting the time: sequences of calls -/

theorem nextOffset_normal (s0 s1 h m : Int) (hh0 : 0 ≤ h) (hh : h < 24) (hm0 : 0 ≤ m)
    (hm : m < 60) :
    ∃ h' m' : Int, 0 ≤ h' ∧ h' < 24 ∧ 0 ≤ m' ∧ m' < 60 ∧
      nextOffset s0 s1 (h * 3600 + m * 60) = h' * 3600 + m' * 60 := by
  obtain ⟨e1, e2⟩ := offset_fields h m hh0 hh hm0 hm
  simp only [nextOffset, e1, e2]
  by_cases hs0 : s0 = ButtonPressed ∨ s0 = ButtonHeld
  · by_cases hs1 : s1 = ButtonPressed
    · simp only [hs0, hs1, if_true]
      exact ⟨if h + 1 > 23 then 0 else h + 1, if m + 1 > 59 then 0 else m + 1,
        by split <;> omega, by split <;> omega, by split <;> omega, by split <;> omega, rfl⟩
    · simp only [hs0, hs1, if_true, if_false]
      exact ⟨h, if m + 1 > 59 then 0 else m + 1, hh0, hh,
        by split <;> omega, by split <;> omega, rfl⟩
  · by_cases hs1 : s1 = ButtonPressed
    · simp only [hs0, hs1, if_true, if_false]
      exact ⟨if h + 1 > 23 then 0 else h + 1, m,
        by split <;> omega, by split <;> omega, hm0, hm, rfl⟩
    · simp only [hs0, hs1, if_false]
      exact ⟨h, m, hh0, hh, hm0, hm, rfl⟩

theorem updateTimes_normal (sz : IntSize) (ticks : List Tick) (g : Globals) (hlen : g.state.length = 4)
    (hn : ∃ h m : Int, 0 ≤ h ∧ h < 24 ∧ 0 ≤ m ∧ m < 60 ∧ g.offset = h * 3600 + m * 60) :
    ∃ g', updateTimes sz ticks g = some g' ∧
      ∃ h m : Int, 0 ≤ h ∧ h < 24 ∧ 0 ≤ m ∧ m < 60 ∧ g'.offset = h * 3600 + m * 60 := by
  induction ticks generalizing g with
  | nil => exact ⟨g, rfl, hn⟩
  | cons t ts ih =>
    obtain ⟨h, m, hh0, hh, hm0, hm, ho⟩ := hn
    obtain ⟨st, hst, hu⟩ := updateTime_spec sz t.now0 t.now1
      { g with buttons := [t.b0, t.b1] } t.b0 t.b1 hlen rfl rfl
    obtain ⟨g', hg', hn'⟩ := ih
      { state := st, dots := g.dots, buttons := [t.b0, t.b1],
        offset := nextOffset t.b0.state t.b1.state g.offset } hst (by
      show ∃ h m : Int, 0 ≤ h ∧ h < 24 ∧ 0 ≤ m ∧ m < 60 ∧
        nextOffset t.b0.state t.b1.state g.offset = h * 3600 + m * 60
      rw [ho]
      exact nextOffset_normal _ _ h m hh0 hh hm0 hm)
    exact ⟨g', by simp only [updateTimes, hu, hg'], hn'⟩

/-- C8: starting from offset 0, any finite sequence of `updateTime` calls, whatever the
two buttons look like at each call, succeeds and leaves a normalized offset: it is
`h*3600 + m*60` for some `h` in `[0,24)` and `m` in `[0,60)`, it lies in `[0, 86400)`,
its seconds component is 0, and the decomposition `hour = offset/3600 mod 24`,
`minute = offset/60 mod 60` gives back `h` and `m`. -/
theorem offset_stays_normalized (sz : IntSize) (ticks : List Tick) (g : Globals)
    (hlen : g.state.length = 4) (ho : g.offset = 0) :
    ∃ g', updateTimes sz ticks g = some g' ∧
      ∃ h m : Int, 0 ≤ h ∧ h < 24 ∧ 0 ≤ m ∧ m < 60 ∧ g'.offset = h * 3600 + m * 60 ∧
        0 ≤ g'.offset ∧ g'.offset < 86400 ∧ g'.offset % 60 = 0 ∧
        (g'.offset.tdiv 3600).tmod 24 = h ∧ (g'.offset.tdiv 60).tmod 60 = m := by
  obtain ⟨g', hg', h, m, hh0, hh, hm0, hm, ho'⟩ :=
    updateTimes_normal sz ticks g hlen ⟨0, 0, by decide, by decide, by decide, by decide, by
      rw [ho]; rfl⟩
  obtain ⟨e1, e2⟩ := offset_fields h m hh0 hh hm0 hm
  rw [← ho'] at e1 e2
  exact ⟨g', hg', h, m, hh0, hh, hm0, hm, ho', by omega, by omega, by omega, e1, e2⟩


/-- Witness for C8: a press of both buttons, an idle tick, then button 0 held. -/
theorem offset_stays_normalized_witness :
    ∃ g', updateTimes .w32
        [ { b0 := { index := 0, pin := 16, dwell := 1, pressed := true },
            b1 := { index := 1, pin := 17, dwell := 1, pressed := true },
            now0 := 50399, now1 := 50399 },
          { b0 := { index := 0, pin := 16, dwell := 0, pressed := false },
            b1 := { index := 1, pin := 17, dwell := 2, pressed := false },
            now0 := 50399, now1 := 50399 },
          { b0 := { index := 0, pin := 16, dwell := 51, pressed := false },
            b1 := { index := 1, pin := 17, dwell := 52, pressed := false },
            now0 := 50400, now1 := 50400 } ]
        Globals.boot = some g' ∧
      ∃ h m : Int, 0 ≤ h ∧ h < 24 ∧ 0 ≤ m ∧ m < 60 ∧ g'.offset = h * 3600 + m * 60 ∧
        0 ≤ g'.offset ∧ g'.offset < 86400 ∧ g'.offset % 60 = 0 ∧
        (g'.offset.tdiv 3600).tmod 24 = h ∧ (g'.offset.tdiv 60).tmod 60 = m :=
  offset_stays_normalized .w32 _ Globals.boot rfl rfl

theorem updateTimes_minutes (sz : IntSize) (ticks : List Tick) (g : Globals) (h m : Int)
    (hh0 : 0 ≤ h) (hh : h < 24) (hm0 : 0 ≤ m) (hm : m < 60)
    (ho : g.offset = h * 3600 + m * 60) (hlen : g.state.length = 4)
    (hall : ∀ t ∈ ticks,
      (t.b0.state = ButtonPressed ∨ t.b0.state = ButtonHeld) ∧ t.b1.state ≠ ButtonPressed) :
    ∃ g', updateTimes sz ticks g = some g' ∧
      g'.offset = h * 3600 + (m + ticks.length) % 60 * 60 := by
  induction ticks generalizing g m with
  | nil =>
    refine ⟨g, rfl, ?_⟩
    rw [ho]
    simp only [List.length_nil, Nat.cast_zero, add_zero]
    omega
  | cons t ts ih =>
    obtain ⟨hs0, hs1⟩ := hall t (List.mem_cons_self t ts)
    obtain ⟨st, hst, hu⟩ := updateTime_spec sz t.now0 t.now1
      { g with buttons := [t.b0, t.b1] } t.b0 t.b1 hlen rfl rfl
    have hnext : nextOffset t.b0.state t.b1.state g.offset = h * 3600 + (m + 1) % 60 * 60 := by
      rw [ho]
      exact nextOffset_minute _ _ h m hh0 hh hm0 hm hs0 hs1
    obtain ⟨g', hg', ho'⟩ := ih
      { state := st, dots := g.dots, buttons := [t.b0, t.b1],
        offset := nextOffset t.b0.state t.b1.state g.offset } ((m + 1) % 60)
      (by omega) (by omega) hnext hst (fun t' ht' => hall t' (List.mem_cons_of_mem t ht'))
    refine ⟨g', by simp only [updateTimes, hu, hg'], ?_⟩
    rw [ho']
    simp only [List.length_cons, Nat.cast_add, Nat.cast_one]
    omega

/-- C9: from `offset = h*3600 + m*60` with `h` in `[0,24)` and `m` in `[0,60)`, sixty
calls of `updateTime` in a row, each with button 0 Pressed or Held and button 1 not
Pressed, succeed and bring the offset back to exactly `h*3600 + m*60`. -/
theorem sixty_minute_steps (sz : IntSize) (ticks : List Tick) (g : Globals) (h m : Int)
    (hh0 : 0 ≤ h) (hh : h < 24) (hm0 : 0 ≤ m) (hm : m < 60)
    (ho : g.offset = h * 3600 + m * 60) (hlen : g.state.length = 4)
    (h60 : ticks.length = 60)
    (hall : ∀ t ∈ ticks,
      (t.b0.state = ButtonPressed ∨ t.b0.state = ButtonHeld) ∧ t.b1.state ≠ ButtonPressed) :
    ∃ g', updateTimes sz ticks g = some g' ∧ g'.offset = h * 3600 + m * 60 ∧
      (g'.offset.tdiv 3600).tmod 24 = h ∧ (g'.offset.tdiv 60).tmod 60 = m := by
  obtain ⟨g', hg', ho'⟩ := updateTimes_minutes sz ticks g h m hh0 hh hm0 hm ho hlen hall
  rw [h60] at ho'
  have ho'' : g'.offset = h * 3600 + m * 60 := by
    rw [ho']
    simp only [Nat.cast_ofNat]
    omega
  obtain ⟨e1, e2⟩ := offset_fields h m hh0 hh hm0 hm
  rw [← ho''] at e1 e2
  exact ⟨g', hg', ho'', e1, e2⟩

/-- Witness for C9: button 0 held for sixty ticks from 22:17. -/
theorem sixty_minute_steps_witness :
    ∃ g', updateTimes .w32
        (List.replicate 60
          { b0 := { index := 0, pin := 16, dwell := 77, pressed := false },
            b1 := { index := 1, pin := 17, dwell := 0, pressed := false },
            now0 := 0, now1 := 0 })
        { Globals.boot with offset := 22 * 3600 + 17 * 60 } = some g' ∧
      g'.offset = 22 * 3600 + 17 * 60 ∧
      (g'.offset.tdiv 3600).tmod 24 = 22 ∧ (g'.offset.tdiv 60).tmod 60 = 17 :=
  sixty_minute_steps .w32 _ { Globals.boot with offset := 22 * 3600 + 17 * 60 } 22 17
    (by decide) (by decide) (by decide) (by decide) rfl rfl (by simp)
    (by
      intro t ht
      rw [List.eq_of_mem_replicate ht]
      exact ⟨Or.inr (by decide), by decide⟩)

/-- C10: Held is not honoured for hours.  With button 0 Off and button 1 Held or Off, a
call of `updateTime` returns every variable untouched, for any offset and any slot
contents: the offset is unchanged and the display is not recomputed.  And whenever
button 1 is not Pressed, the hour read from the offset is the same after the call as
before it (here for the offsets `≥ 0`, the only ones that arise): the hour changes
only on a tick where button 1 is Pressed. -/
theorem hour_step_needs_press (sz : IntSize) (now0 now1 : Int) (g : Globals) (b0 b1 : button)
    (h0 : sliceGet g.buttons 0 = some b0) (h1 : sliceGet g.buttons 1 = some b1) :
    (b0.state = ButtonOff → b1.state = ButtonHeld ∨ b1.state = ButtonOff →
      updateTime sz now0 now1 g = some g) ∧
    (b1.state ≠ ButtonPressed → 0 ≤ g.offset → g.state.length = 4 →
      ∃ g', updateTime sz now0 now1 g = some g' ∧
        (g'.offset.tdiv 3600).tmod 24 = (g.offset.tdiv 3600).tmod 24) := by
  constructor
  · intro hs0 hs1
    refine updateTime_idle sz now0 now1 g b0 b1 h0 h1 (by rw [hs0]; decide) ?_
    rcases hs1 with hs1 | hs1 <;> rw [hs1] <;> decide
  · intro hs1 hpos hlen
    obtain ⟨st, _, hu⟩ := updateTime_spec sz now0 now1 g b0 b1 hlen h0 h1
    refine ⟨_, hu, ?_⟩
    show ((nextOffset b0.state b1.state g.offset).tdiv 3600).tmod 24 = _
    obtain ⟨e1, e2⟩ := face_fields g.offset hpos
    by_cases hs0 : b0.state = ButtonPressed ∨ b0.state = ButtonHeld
    · have hn : nextOffset b0.state b1.state g.offset =
          g.offset / 3600 % 24 * 3600 + (g.offset / 60 % 60 + 1) % 60 * 60 := by
        simp only [nextOffset, e1, e2, hs0, hs1, if_true, if_false]
        split <;> omega
      rw [hn, e1]
      exact (offset_fields _ _ (by omega) (by omega) (by omega) (by omega)).1
    · simp only [nextOffset, hs0, hs1, if_false]

/-- Witness for C10: button 1 held with button 0 up, over slots that show no time; then
button 1 held while button 0 is held too, at 01:59. -/
theorem hour_step_needs_press_witness :
    updateTime .w32 7 7
        { state := [1, 2, 3, 4], dots := [0, 1, 0, 0],
          buttons := [{ index := 0, pin := 16, dwell := 0, pressed := false },
                      { index := 1, pin := 17, dwell := 60, pressed := false }],
          offset := 3600 } =
      some
        { state := [1, 2, 3, 4], dots := [0, 1, 0, 0],
          buttons := [{ index := 0, pin := 16, dwell := 0, pressed := false },
                      { index := 1, pin := 17, dwell := 60, pressed := false }],
          offset := 3600 } ∧
    ∃ g', updateTime .w32 7 7
        { state := [1, 2, 3, 4], dots := [1, 1, 0, 0],
          buttons := [{ index := 0, pin := 16, dwell := 60, pressed := false },
                      { index := 1, pin := 17, dwell := 60, pressed := false }],
          offset := 7140 } = some g' ∧
      (g'.offset.tdiv 3600).tmod 24 = ((7140 : Int).tdiv 3600).tmod 24 :=
  ⟨(hour_step_needs_press .w32 7 7
      { state := [1, 2, 3, 4], dots := [0, 1, 0, 0],
        buttons := [{ index := 0, pin := 16, dwell := 0, pressed := false },
                    { index := 1, pin := 17, dwell := 60, pressed := false }],
        offset := 3600 }
      { index := 0, pin := 16, dwell := 0, pressed := false }
      { index := 1, pin := 17, dwell := 60, pressed := false } rfl rfl).1
      (by decide) (Or.inl (by decide)),
    (hour_step_needs_press .w32 7 7
      { state := [1, 2, 3, 4], dots := [1, 1, 0, 0],
        buttons := [{ index := 0, pin := 16, dwell := 60, pressed := false },
                    { index := 1, pin := 17, dwell := 60, pressed := false }],
        offset := 7140 }
      { index := 0, pin := 16, dwell := 60, pressed := false }
      { index := 1, pin := 17, dwell := 60, pressed := false } rfl rfl).2
      (by decide) (by decide) rfl⟩


/-! ## The renderer and the digit table -/

set_option maxRecDepth 1000000 in
/-- The packed word, for every 8-bit pattern and every position, checked case by case. -/
theorem mask_word : ∀ bits < 256, ∀ p < 4,
    ((((bits <<< 4) % 2 ^ 32) ||| 0b1111) ^^^ ((1 <<< p) % 2 ^ 32)) =
      ((bits <<< 4) ||| 0b1111) ^^^ (1 <<< p) ∧
    (∀ q < 4, (((bits <<< 4) ||| 0b1111) ^^^ (1 <<< p)).testBit q = decide (q ≠ p)) ∧
    ((((bits <<< 4) ||| 0b1111) ^^^ (1 <<< p)) >>> 4) % 2 ^ 8 = bits ∧
    (((bits <<< 4) ||| 0b1111) ^^^ (1 <<< p)) < 2 ^ 12 := by
  decide

/-- C11: at a position `p` in `0..3` whose combined pattern `bits = state[p] | dots[p]`
fits in 8 bits, `render` writes `((bits << 4) | 0b1111) ^ (1 << p)`: of the low four
bits exactly bit `p` is 0 and the other three are 1, bits 4 to 11 are `bits`, and no
higher bit is set. -/
theorem render_mask_packing (p : Nat) (g : Globals) (s d : Nat) (hp : p < 4)
    (hs : sliceGet g.state p = some s) (hd : sliceGet g.dots p = some d)
    (hbits : s ||| d < 256) :
    ∃ w, render.mask p g = some w ∧
      w = (((s ||| d) <<< 4) ||| 0b1111) ^^^ (1 <<< p) ∧
      (∀ q < 4, w.testBit q = decide (q ≠ p)) ∧
      (w >>> 4) % 2 ^ 8 = s ||| d ∧
      w < 2 ^ 12 := by
  obtain ⟨e, hsel, hdata, hlt⟩ := mask_word (s ||| d) hbits p hp
  refine ⟨_, ?_, rfl, hsel, hdata, hlt⟩
  simp only [render.mask, hs, hd, e]

/-- Witness for C11: position 2 showing the digit 4 with the heartbeat dot lit. -/
theorem render_mask_packing_witness :
    ∃ w, render.mask 2
        { state := [0b10110110, 0b11111100, 0b01100110, 0b01100000], dots := [0, 0, 1, 0],
          buttons := [], offset := 0 } = some w ∧
      w = (((0b01100110 ||| 1) <<< 4) ||| 0b1111) ^^^ (1 <<< 2) ∧
      (∀ q < 4, w.testBit q = decide (q ≠ 2)) ∧
      (w >>> 4) % 2 ^ 8 = 0b01100110 ||| 1 ∧
      w < 2 ^ 12 :=
  render_mask_packing 2
    { state := [0b10110110, 0b11111100, 0b01100110, 0b01100000], dots := [0, 0, 1, 0],
      buttons := [], offset := 0 } 0b01100110 1 (by decide) rfl rfl (by decide)

/-- C12: for every decimal digit `d` in `0..9` the table has an entry `digits[d]`, its
decimal-point bit (bit 0) is clear, and it fits in 8 bits. -/
theorem digits_dot_clear (d : Int) (h0 : 0 ≤ d) (h9 : d ≤ 9) :
    ∃ v, sliceGet digits d = some v ∧ v.testBit 0 = false ∧ v &&& 1 = 0 ∧ v < 2 ^ 8 := by
  interval_cases d <;> exact ⟨_, rfl, by decide, by decide, by decide⟩

/-- Witness for C12: the digit 8, with all seven segments lit. -/
theorem digits_dot_clear_witness :
    ∃ v, sliceGet digits 8 = some v ∧ v.testBit 0 = false ∧ v &&& 1 = 0 ∧ v < 2 ^ 8 :=
  digits_dot_clear 8 (by decide) (by decide)

/-- C13: for a display number `n ≥ 10000`, `Display n` does not fail: slots 0 to 3
receive the bitmaps of the four least-significant decimal digits of `n`, which is what
`Display (n mod 10000)` gives, and the higher digits are dropped. -/
theorem Display_drops_high_digits (n : Int) (g : Globals)
    (hn : 10000 ≤ n) (hlen : g.state.length = 4) :
    ∃ d0 d1 d2 d3,
      sliceGet digits (n % 10) = some d0 ∧ sliceGet digits (n / 10 % 10) = some d1 ∧
      sliceGet digits (n / 100 % 10) = some d2 ∧ sliceGet digits (n / 1000 % 10) = some d3 ∧
      Display n g = some { g with state := [d0, d1, d2, d3] } ∧
      Display n g = Display (n % 10000) g := by
  have h1 := Display_digits n g hlen (by omega)
  have h2 := Display_digits (n % 10000) g hlen (by omega)
  have e0 : n % 10000 % 10 = n % 10 := by omega
  have e1 : n % 10000 / 10 % 10 = n / 10 % 10 := by omega
  have e2 : n % 10000 / 100 % 10 = n / 100 % 10 := by omega
  have e3 : n % 10000 / 1000 % 10 = n / 1000 % 10 := by omega
  rw [e0, e1, e2, e3] at h2
  exact ⟨_, _, _, _, sliceGet_digits _ (by omega) (by omega),
    sliceGet_digits _ (by omega) (by omega), sliceGet_digits _ (by omega) (by omega),
    sliceGet_digits _ (by omega) (by omega), h1, h1.trans h2.symm⟩

/-- Witness for C13: the six-digit number 123456 shows as 3456. -/
theorem Display_drops_high_digits_witness :
    ∃ d0 d1 d2 d3,
      sliceGet digits (123456 % 10) = some d0 ∧ sliceGet digits (123456 / 10 % 10) = some d1 ∧
      sliceGet digits (123456 / 100 % 10) = some d2 ∧
      sliceGet digits (123456 / 1000 % 10) = some d3 ∧
      Display 123456 Globals.boot = some { Globals.boot with state := [d0, d1, d2, d3] } ∧
      Display 123456 Globals.boot = Display (123456 % 10000) Globals.boot :=
  Display_drops_high_digits 123456 Globals.boot (by decide) rfl

theorem nextOffset_both (s0 s1 h m : Int) (hh0 : 0 ≤ h) (hh : h < 24) (hm0 : 0 ≤ m)
    (hm : m < 60) (hs0 : s0 = ButtonPressed ∨ s0 = ButtonHeld) (hs1 : s1 = ButtonPressed) :
    nextOffset s0 s1 (h * 3600 + m * 60) = (h + 1) % 24 * 3600 + (m + 1) % 60 * 60 := by
  obtain ⟨e1, e2⟩ := offset_fields h m hh0 hh hm0 hm
  simp only [nextOffset, e1, e2, hs0, hs1, if_true]
  split <;> split <;> omega

/-- C14: from `offset = h*3600 + m*60` with `h` in `[0,24)` and `m` in `[0,60)`, a call
of `updateTime` with button 0 Pressed or Held and button 1 Pressed on the same tick
succeeds and leaves `((h+1) mod 24)*3600 + ((m+1) mod 60)*60`: the hour step recomposes
the offset with the minute the minute step has just produced, so the minute read back
is `(m+1) mod 60`, not `m`. -/
theorem updateTime_both_steps (sz : IntSize) (h m now0 now1 : Int) (g : Globals) (b0 b1 : button)
    (hh0 : 0 ≤ h) (hh : h < 24) (hm0 : 0 ≤ m) (hm : m < 60)
    (ho : g.offset = h * 3600 + m * 60) (hlen : g.state.length = 4)
    (h0 : sliceGet g.buttons 0 = some b0) (h1 : sliceGet g.buttons 1 = some b1)
    (hs0 : b0.state = ButtonPressed ∨ b0.state = ButtonHeld)
    (hs1 : b1.state = ButtonPressed) :
    ∃ g', updateTime sz now0 now1 g = some g' ∧
      g'.offset = (h + 1) % 24 * 3600 + (m + 1) % 60 * 60 ∧
      (g'.offset.tdiv 3600).tmod 24 = (h + 1) % 24 ∧
      (g'.offset.tdiv 60).tmod 60 = (m + 1) % 60 ∧
      (g'.offset.tdiv 60).tmod 60 ≠ m := by
  obtain ⟨st, _, hu⟩ := updateTime_spec sz now0 now1 g b0 b1 hlen h0 h1
  rw [ho, nextOffset_both _ _ h m hh0 hh hm0 hm hs0 hs1] at hu
  obtain ⟨e1, e2⟩ := offset_fields ((h + 1) % 24) ((m + 1) % 60)
    (by omega) (by omega) (by omega) (by omega)
  refine ⟨_, hu, rfl, e1, e2, ?_⟩
  show (((h + 1) % 24 * 3600 + (m + 1) % 60 * 60).tdiv 60).tmod 60 ≠ m
  rw [e2]
  omega

/-- Witness for C14: both buttons go down on the same tick at 23:59. -/
theorem updateTime_both_steps_witness :
    ∃ g', updateTime .w32 0 0
        { state := [0, 0, 0, 0], dots := [1, 1, 0, 0],
          buttons := [{ index := 0, pin := 16, dwell := 1, pressed := true },
                      { index := 1, pin := 17, dwell := 1, pressed := true }],
          offset := 23 * 3600 + 59 * 60 } = some g' ∧
      g'.offset = (23 + 1) % 24 * 3600 + (59 + 1) % 60 * 60 ∧
      (g'.offset.tdiv 3600).tmod 24 = (23 + 1) % 24 ∧
      (g'.offset.tdiv 60).tmod 60 = (59 + 1) % 60 ∧
      (g'.offset.tdiv 60).tmod 60 ≠ 59 :=
  updateTime_both_steps .w32 23 59 0 0
    { state := [0, 0, 0, 0], dots := [1, 1, 0, 0],
      buttons := [{ index := 0, pin := 16, dwell := 1, pressed := true },
                  { index := 1, pin := 17, dwell := 1, pressed := true }],
      offset := 23 * 3600 + 59 * 60 }
    { index := 0, pin := 16, dwell := 1, pressed := true }
    { index := 1, pin := 17, dwell := 1, pressed := true }
    (by decide) (by decide) (by decide) (by decide) rfl rfl rfl rfl
    (Or.inl (by decide)) (by decide)


/-! ## Buttons: invariant and frame -/

theorem sliceGet_set_ne {α : Type} (xs : List α) (i j : Int) (v : α) (hi0 : 0 ≤ i)
    (hne : j ≠ i) : sliceGet (xs.set i.toNat v) j = sliceGet xs j := by
  unfold sliceGet
  simp only [List.length_set]
  split
  · rename_i hj
    have : i.toNat ≠ j.toNat := by omega
    simp only [List.get?_eq_getElem?, List.getElem?_set_ne this]
  · rfl

theorem sliceGet_set_eq {α : Type} (xs : List α) (i : Int) (v : α) (hi0 : 0 ≤ i)
    (hi : i < xs.length) : sliceGet (xs.set i.toNat v) i = some v := by
  unfold sliceGet
  have hlt : i.toNat < xs.length := by omega
  simp [hi0, hi, List.getElem?_set_self, hlt]

/-- What a sampling tick does to the button and to the dots. -/
theorem updateState_effect (sz : IntSize) (active : Bool) (b : button) (dots : List Nat)
    (hi0 : 0 ≤ b.index) (hi : b.index < dots.length) :
    b.updateState sz active dots =
      some ({ b with dwell := if active then sz.wrap (b.dwell + 1) else 0,
                     pressed := active && decide (b.dwell = 0) },
        dots.set b.index.toNat (if active then 1 else 0)) := by
  cases active
  · rw [updateState_inactive sz b dots hi0 hi]; simp
  · rw [updateState_active_wrap sz b dots hi0 hi]; simp

/-- Over any inputs the run returns, pressed is true exactly when dwell is 1, and dwell
is not negative as long as the ticks so far cannot have carried it past the largest
`int`. -/
theorem run_invariant (sz : IntSize) (inputs : List Bool) (b : button) (dots : List Nat)
    (hinv : (b.pressed = true ↔ b.dwell = 1) ∧ sz.minInt ≤ b.dwell ∧ b.dwell ≤ sz.maxInt)
    (hi0 : 0 ≤ b.index) (hi : b.index < dots.length) :
    ∃ cs b' dots', button.run sz inputs b dots = some (cs, b', dots') ∧
      (b'.pressed = true ↔ b'.dwell = 1) ∧
      (0 ≤ b.dwell → b.dwell + inputs.length ≤ sz.maxInt → 0 ≤ b'.dwell) := by
  induction inputs generalizing b dots with
  | nil => exact ⟨[], b, dots, rfl, hinv.1, fun h _ => h⟩
  | cons a as ih =>
    have hu := updateState_effect sz a b dots hi0 hi
    have hmin := minInt_le sz
    have hmax := maxInt_ge sz
    obtain ⟨cs, b', dots', hr, h1, h2⟩ := ih
      { b with dwell := if a then sz.wrap (b.dwell + 1) else 0,
               pressed := a && decide (b.dwell = 0) }
      (dots.set b.index.toNat (if a then 1 else 0))
      (by
        cases a
        · exact ⟨by simp, by show sz.minInt ≤ (0 : Int); omega,
            by show (0 : Int) ≤ sz.maxInt; omega⟩
        · simp only [if_true, Bool.true_and, decide_eq_true_eq]
          exact ⟨(wrap_succ_eq_one sz b.dwell hinv.2.1 hinv.2.2).symm,
            (wrap_range sz _).1, (wrap_range sz _).2⟩)
      hi0 (by simpa using hi)
    refine ⟨_, b', dots', run_cons _ _ _ _ _ _ _ _ _ hu hr, h1, ?_⟩
    intro h0 hlen
    simp only [List.length_cons, Nat.cast_add, Nat.cast_one] at hlen
    apply h2
    · cases a
      · simp
      · simp only [if_true]
        rw [wrap_eq sz _ (by omega) (by omega)]
        omega
    · cases a
      · simp only [Bool.false_eq_true, if_false]
        omega
      · simp only [if_true]
        rw [wrap_eq sz _ (by omega) (by omega)]
        omega

/-- C15 as stated fails in its last part once a press outlasts the range of `int`.  With
a 32-bit `int`, after `2^31` active ticks from rest the increment has wrapped and dwell
is `-2^31`, a negative number. -/
theorem dwell_goes_negative :
    ∃ cs b' dots', button.run .w32 (List.replicate (2147483647 + 1) true)
        { index := 0, pin := 16, dwell := 0, pressed := false } [0, 0, 0, 0] =
        some (cs, b', dots') ∧
      b'.dwell = -2147483648 ∧ b'.dwell < 0 := by
  obtain ⟨b', dots', hr, hdw, _⟩ := run_past_maxInt .w32 2147483647
    { index := 0, pin := 16, dwell := 0, pressed := false } [0, 0, 0, 0]
    (by decide) rfl (by decide) (by decide)
  have hdw' : b'.dwell = -2147483648 := by rw [hdw]; decide
  exact ⟨_, b', dots', hr, hdw', by rw [hdw']; decide⟩

/-- C15, amended: starting from dwell 0 and pressed false, after the sampling ticks of
any input sequence the run has returned, pressed is true exactly when dwell is 1, and
the button is never both pressed and past the Held threshold; dwell is not negative
as long as the number of ticks does not exceed the largest `int`. -/
theorem pressed_iff_dwell_one (sz : IntSize) (inputs : List Bool) (b : button)
    (dots : List Nat) (hd : b.dwell = 0) (hp : b.pressed = false)
    (hi0 : 0 ≤ b.index) (hi : b.index < dots.length) :
    ∃ cs b' dots', button.run sz inputs b dots = some (cs, b', dots') ∧
      (b'.pressed = true ↔ b'.dwell = 1) ∧
      ¬ (b'.pressed = true ∧ b'.dwell > 50) ∧
      ((inputs.length : Int) ≤ sz.maxInt → 0 ≤ b'.dwell) := by
  have hmin := minInt_le sz
  have hmax := maxInt_ge sz
  obtain ⟨cs, b', dots', hr, h1, h2⟩ := run_invariant sz inputs b dots
    (by rw [hd, hp]; exact ⟨by simp, by omega, by omega⟩) hi0 hi
  refine ⟨cs, b', dots', hr, h1, ?_, ?_⟩
  · rintro ⟨hp', hd'⟩
    have := h1.1 hp'
    omega
  · intro hlen
    exact h2 (by omega) (by omega)

/-- Witness for C15, amended: a press, a release and a second press that lasts two
ticks. -/
theorem pressed_iff_dwell_one_witness :
    ∃ cs b' dots', button.run .w32 [true, false, true, true]
        { index := 0, pin := 16, dwell := 0, pressed := false } [0, 0, 0, 0] =
        some (cs, b', dots') ∧
      (b'.pressed = true ↔ b'.dwell = 1) ∧
      ¬ (b'.pressed = true ∧ b'.dwell > 50) ∧ 0 ≤ b'.dwell :=
  have t := pressed_iff_dwell_one .w32 [true, false, true, true]
    { index := 0, pin := 16, dwell := 0, pressed := false } [0, 0, 0, 0]
    rfl rfl (by decide) (by decide)
  t.elim fun cs t1 => t1.elim fun b' t2 => t2.elim fun dots' h =>
    ⟨cs, b', dots', h.1, h.2.1, h.2.2.1, h.2.2.2 (by decide)⟩

/-- The sampling loop succeeds when every button points at one of the first two dots; it
keeps the number of buttons and their indices and leaves the dots from slot 2 on alone. -/
theorem sample_frame (sz : IntSize) (pins : Nat → Bool) (bs : List button) (dots : List Nat)
    (hidx : ∀ b ∈ bs, 0 ≤ b.index ∧ b.index < 2) (hlen : 2 ≤ dots.length) :
    ∃ bs' dots', checkButtons.sample sz pins bs dots = some (bs', dots') ∧
      bs'.length = bs.length ∧ (∀ b ∈ bs', 0 ≤ b.index ∧ b.index < 2) ∧
      dots'.length = dots.length ∧
      ∀ j : Int, 2 ≤ j → sliceGet dots' j = sliceGet dots j := by
  induction bs generalizing dots with
  | nil => exact ⟨[], dots, rfl, rfl, by simp, rfl, fun _ _ => rfl⟩
  | cons b bs ih =>
    obtain ⟨hb0, hb2⟩ := hidx b (List.mem_cons_self b bs)
    have hu := updateState_effect sz (pins b.pin) b dots hb0 (by omega)
    obtain ⟨bs', dots', hs, hl, hi, hdl, hfr⟩ :=
      ih (dots.set b.index.toNat (if pins b.pin then 1 else 0))
        (fun b' hb' => hidx b' (List.mem_cons_of_mem b hb')) (by simpa using hlen)
    refine ⟨{ b with dwell := if pins b.pin then sz.wrap (b.dwell + 1) else 0,
                     pressed := pins b.pin && decide (b.dwell = 0) } :: bs', dots',
      by simp only [checkButtons.sample, hu, hs], by simp [hl], ?_,
      by simpa using hdl, ?_⟩
    · intro b' hb'
      rcases List.mem_cons.mp hb' with h | h
      · rw [h]; exact ⟨hb0, hb2⟩
      · exact hi b' h
    · intro j hj
      rw [hfr j hj]
      exact sliceGet_set_ne dots b.index j _ hb0 (by omega)


theorem boot_wellFormed : Globals.boot.wellFormed := by
  simp [Globals.wellFormed, Globals.boot, addButton, Globals.initial]

theorem sample_op (sz : IntSize) (pins : Nat → Bool) (g : Globals) (hwf : g.wellFormed) :
    ∃ g', Op.apply sz (.sample pins) g = some g' ∧ g'.wellFormed ∧
      g'.state = g.state ∧ g'.offset = g.offset ∧
      ∀ j : Int, 2 ≤ j → sliceGet g'.dots j = sliceGet g.dots j := by
  obtain ⟨hst, hdots, hbtn, hidx⟩ := hwf
  obtain ⟨bs', dots', hs, hl, hi, hdl, hfr⟩ :=
    sample_frame sz pins g.buttons g.dots hidx (by omega)
  refine ⟨{ g with buttons := bs', dots := dots' }, by simp [Op.apply, hs], ?_, rfl, rfl, hfr⟩
  exact ⟨hst, by rw [hdl]; exact hdots, by rw [hl]; exact hbtn, hi⟩

theorem sentinal_step_effect (isSet : Bool) (g : Globals) (hlen : g.dots.length = 4) :
    sentinal.step isSet g =
      some (!isSet, { g with dots := g.dots.set 2 (if isSet then 1 else 0) }) := by
  cases isSet <;> simp [sentinal.step, sliceSet, hlen]

/-- C17: a sampling tick of a button with index `i` sets `dots[i]` to 1 when the input
reads active and to 0 otherwise, and leaves every other dot alone.  Run over all the
buttons of a set-up clock, whose indices are 0 and 1 as `addButton` numbers them, the
sampling leaves the display slots, the offset and the dots 2 and 3 unchanged; dot 2
is the one a round of `sentinal` writes. -/
theorem updateState_writes_own_dot (sz : IntSize) (active : Bool) (b : button) (dots : List Nat)
    (pins : Nat → Bool) (isSet : Bool) (g : Globals)
    (hi0 : 0 ≤ b.index) (hi : b.index < dots.length) (hwf : g.wellFormed) :
    (∃ b' dots', b.updateState sz active dots = some (b', dots') ∧
      sliceGet dots' b.index = some (if active then 1 else 0) ∧
      (∀ j : Int, j ≠ b.index → sliceGet dots' j = sliceGet dots j) ∧
      dots'.length = dots.length) ∧
    (∃ g', Op.apply sz (.sample pins) g = some g' ∧
      g'.state = g.state ∧ g'.offset = g.offset ∧
      sliceGet g'.dots 2 = sliceGet g.dots 2 ∧ sliceGet g'.dots 3 = sliceGet g.dots 3) ∧
    (Globals.boot.buttons.map button.index = [0, 1] ∧ Globals.boot.wellFormed) ∧
    (∃ r g', sentinal.step isSet g = some (r, g') ∧
      sliceGet g'.dots 2 = some (if isSet then 1 else 0)) := by
  refine ⟨?_, ?_, ⟨rfl, boot_wellFormed⟩, ?_⟩
  · refine ⟨_, _, updateState_effect sz active b dots hi0 hi,
      sliceGet_set_eq dots b.index _ hi0 hi,
      fun j hj => sliceGet_set_ne dots b.index j _ hi0 hj, by simp⟩
  · obtain ⟨g', hs, _, hst, hoff, hfr⟩ := sample_op sz pins g hwf
    exact ⟨g', hs, hst, hoff, hfr 2 (by decide), hfr 3 (by decide)⟩
  · refine ⟨_, _, sentinal_step_effect isSet g hwf.2.1, ?_⟩
    exact sliceGet_set_eq g.dots 2 _ (by decide) (by rw [hwf.2.1]; decide)

/-- Witness for C17: button 1 goes down while the heartbeat dot is lit. -/
theorem updateState_writes_own_dot_witness :
    (∃ b' dots', button.updateState .w32 true
        { index := 1, pin := 17, dwell := 0, pressed := false } [0, 0, 1, 0] =
        some (b', dots') ∧
      sliceGet dots' 1 = some (if true then 1 else 0) ∧
      (∀ j : Int, j ≠ 1 → sliceGet dots' j = sliceGet [0, 0, 1, 0] j) ∧
      dots'.length = [0, 0, 1, 0].length) ∧
    (∃ g', Op.apply .w32 (.sample fun p => decide (p = 17)) { Globals.boot with dots := [0, 0, 1, 0] } =
        some g' ∧
      g'.state = Globals.boot.state ∧ g'.offset = Globals.boot.offset ∧
      sliceGet g'.dots 2 = sliceGet [0, 0, 1, 0] 2 ∧
      sliceGet g'.dots 3 = sliceGet [0, 0, 1, 0] 3) ∧
    (Globals.boot.buttons.map button.index = [0, 1] ∧ Globals.boot.wellFormed) ∧
    (∃ r g', sentinal.step false { Globals.boot with dots := [0, 0, 1, 0] } = some (r, g') ∧
      sliceGet g'.dots 2 = some (if false then 1 else 0)) :=
  updateState_writes_own_dot .w32 true { index := 1, pin := 17, dwell := 0, pressed := false }
    [0, 0, 1, 0] (fun p => decide (p = 17)) false { Globals.boot with dots := [0, 0, 1, 0] }
    (by decide) (by decide)
    (by simp [Globals.wellFormed, Globals.boot, addButton, Globals.initial])


/-! ## The display slots hold table entries -/

theorem digits_bit_zero : ∀ v ∈ digits, v.testBit 0 = false := by decide

theorem digitBitmap_mem (d : Int) (h0 : 0 ≤ d) (h1 : d < 10) : digitBitmap d ∈ digits := by
  interval_cases d <;> decide

theorem Display_in_digits (n : Int) (g : Globals) (hlen : g.state.length = 4) :
    ∃ st, st.length = 4 ∧ (∀ v ∈ st, v ∈ digits) ∧
      Display n g = some { g with state := st } := by
  by_cases h : 0 ≤ n
  · refine ⟨[_, _, _, _], rfl, ?_, Display_digits n g hlen h⟩
    intro v hv
    simp only [List.mem_cons, List.mem_singleton, List.not_mem_nil, or_false] at hv
    rcases hv with hv | hv | hv | hv <;> rw [hv] <;>
      exact digitBitmap_mem _ (by omega) (by omega)
  · refine ⟨[_, _, _, _], rfl, ?_, Display_nonpos n g hlen (by omega)⟩
    intro v hv
    simp only [List.mem_cons, List.mem_singleton, List.not_mem_nil, or_false] at hv
    rcases hv with hv | hv | hv | hv <;> rw [hv] <;> decide

theorem setOffset_in_digits (sz : IntSize) (now hour minute : Int) (g : Globals)
    (hlen : g.state.length = 4) :
    ∃ st, st.length = 4 ∧ (∀ v ∈ st, v ∈ digits) ∧
      setOffset sz now hour minute g =
        some { g with state := st, offset := hour * 3600 + minute * 60 } := by
  obtain ⟨st, hst, hmem, hf⟩ :=
    Display_in_digits _ { g with offset := hour * 3600 + minute * 60 } hlen
  exact ⟨st, hst, hmem, hf⟩

theorem two_buttons (bs : List button) (h : 2 ≤ bs.length) :
    ∃ b0 b1, sliceGet bs 0 = some b0 ∧ sliceGet bs 1 = some b1 := by
  match bs, h with
  | b0 :: b1 :: rest, _ =>
    refine ⟨b0, b1, ?_, ?_⟩
    · simp [sliceGet]
      omega
    · simp [sliceGet]

/-- A call of `updateTime` either leaves the slots as they were or fills them from the
digit table; it never touches the dots or the buttons. -/
theorem updateTime_state (sz : IntSize) (now0 now1 : Int) (g : Globals) (b0 b1 : button)
    (hlen : g.state.length = 4)
    (h0 : sliceGet g.buttons 0 = some b0) (h1 : sliceGet g.buttons 1 = some b1) :
    ∃ st, st.length = 4 ∧ (st = g.state ∨ ∀ v ∈ st, v ∈ digits) ∧
      updateTime sz now0 now1 g =
        some { g with state := st, offset := nextOffset b0.state b1.state g.offset } := by
  by_cases hs0 : b0.state = ButtonPressed ∨ b0.state = ButtonHeld
  · obtain ⟨st0, hst0, hm0, hf0⟩ := setOffset_in_digits sz now0 ((g.offset.tdiv 3600).tmod 24)
      (if (g.offset.tdiv 60).tmod 60 + 1 > 59 then 0 else (g.offset.tdiv 60).tmod 60 + 1)
      g hlen
    by_cases hs1 : b1.state = ButtonPressed
    · obtain ⟨st1, hst1, hm1, hf1⟩ := setOffset_in_digits sz now1
        (if (g.offset.tdiv 3600).tmod 24 + 1 > 23 then 0 else (g.offset.tdiv 3600).tmod 24 + 1)
        (if (g.offset.tdiv 60).tmod 60 + 1 > 59 then 0 else (g.offset.tdiv 60).tmod 60 + 1)
        { g with state := st0, offset := (g.offset.tdiv 3600).tmod 24 * 3600 +
          (if (g.offset.tdiv 60).tmod 60 + 1 > 59 then 0
            else (g.offset.tdiv 60).tmod 60 + 1) * 60 } hst0
      refine ⟨st1, hst1, Or.inr hm1, ?_⟩
      simp only [updateTime, h0, hs0, if_true, hf0, Option.map_some', h1, hs1, hf1, nextOffset]
    · refine ⟨st0, hst0, Or.inr hm0, ?_⟩
      simp only [updateTime, h0, hs0, if_true, hf0, Option.map_some', h1, hs1, if_false,
        nextOffset]
  · by_cases hs1 : b1.state = ButtonPressed
    · obtain ⟨st1, hst1, hm1, hf1⟩ := setOffset_in_digits sz now1
        (if (g.offset.tdiv 3600).tmod 24 + 1 > 23 then 0 else (g.offset.tdiv 3600).tmod 24 + 1)
        ((g.offset.tdiv 60).tmod 60) g hlen
      refine ⟨st1, hst1, Or.inr hm1, ?_⟩
      simp only [updateTime, h0, hs0, if_false, h1, hs1, if_true, hf1, nextOffset]
    · refine ⟨g.state, hlen, Or.inl rfl, ?_⟩
      rw [updateTime_idle sz now0 now1 g b0 b1 h0 h1 hs0 hs1]
      simp only [nextOffset, hs0, hs1, if_false]

/-- Every operation succeeds on a set-up clock, keeps it set up, and keeps bit 0 of
every display slot clear. -/
theorem op_keeps_dot_bit (sz : IntSize) (op : Op) (g : Globals) (hwf : g.wellFormed)
    (hbit : ∀ v ∈ g.state, v.testBit 0 = false) :
    ∃ g', op.apply sz g = some g' ∧ g'.wellFormed ∧ ∀ v ∈ g'.state, v.testBit 0 = false := by
  have hwf' := hwf
  obtain ⟨hst, hdots, hbtn, hidx⟩ := hwf'
  cases op with
  | display number =>
    obtain ⟨st, hl, hm, hd⟩ := Display_in_digits number g hst
    exact ⟨_, hd, ⟨hl, hdots, hbtn, hidx⟩, fun v hv => digits_bit_zero v (hm v hv)⟩
  | face now =>
    obtain ⟨st, hl, hm, hd⟩ := Display_in_digits
      (((sz.wrap (sz.wrap now + g.offset)).tdiv 3600).tmod 24 * 100 +
        ((sz.wrap (sz.wrap now + g.offset)).tdiv 60).tmod 60) g hst
    exact ⟨_, hd, ⟨hl, hdots, hbtn, hidx⟩, fun v hv => digits_bit_zero v (hm v hv)⟩
  | sample pins =>
    obtain ⟨g', hs, hwf1, hstate, _, _⟩ := sample_op sz pins g hwf
    exact ⟨g', hs, hwf1, by rw [hstate]; exact hbit⟩
  | adjust now0 now1 =>
    obtain ⟨b0, b1, h0, h1⟩ := two_buttons g.buttons hbtn
    obtain ⟨st, hl, hm, hu⟩ := updateTime_state sz now0 now1 g b0 b1 hst h0 h1
    refine ⟨_, hu, ⟨hl, hdots, hbtn, hidx⟩, ?_⟩
    rcases hm with hm | hm
    · intro v hv
      exact hbit v (by rw [← hm]; exact hv)
    · exact fun v hv => digits_bit_zero v (hm v hv)
  | heartbeat isSet =>
    refine ⟨{ g with dots := g.dots.set 2 (if isSet then 1 else 0) }, ?_,
      ⟨hst, by simpa using hdots, hbtn, hidx⟩, hbit⟩
    simp only [Op.apply, sentinal_step_effect isSet g hdots, Option.map_some']

theorem runOps_keeps_dot_bit (sz : IntSize) (ops : List Op) (g : Globals) (hwf : g.wellFormed)
    (hbit : ∀ v ∈ g.state, v.testBit 0 = false) :
    ∃ g', runOps sz ops g = some g' ∧ g'.wellFormed ∧ ∀ v ∈ g'.state, v.testBit 0 = false := by
  induction ops generalizing g with
  | nil => exact ⟨g, rfl, hwf, hbit⟩
  | cons op ops ih =>
    obtain ⟨g1, h1, hwf1, hbit1⟩ := op_keeps_dot_bit sz op g hwf hbit
    obtain ⟨g', h', hwf', hbit'⟩ := ih g1 hwf1 hbit1
    exact ⟨g', by simp only [runOps, h1, h'], hwf', hbit'⟩

/-- C16: from a set-up clock whose display slots are `[0,0,0,0]`, any sequence of
`Display` and `updateFace` calls, button samplings, `updateTime` calls and heartbeat
rounds runs to the end and leaves four display slots that all have bit 0 clear.  In
the state reached, `Display` writes only entries of the digit table, and the button
sampling and the heartbeat leave the display slots as they are. -/
theorem display_slots_keep_dot_clear (sz : IntSize) (ops : List Op) (g : Globals)
    (hwf : g.wellFormed) (h0 : g.state = [0, 0, 0, 0]) :
    ∃ g', runOps sz ops g = some g' ∧
      g'.state.length = 4 ∧ (∀ v ∈ g'.state, v.testBit 0 = false) ∧
      (∀ n, ∃ st, Display n g' = some { g' with state := st } ∧ ∀ v ∈ st, v ∈ digits) ∧
      (∀ pins, ∃ g1, Op.apply sz (.sample pins) g' = some g1 ∧ g1.state = g'.state) ∧
      (∀ isSet, ∃ g1, Op.apply sz (.heartbeat isSet) g' = some g1 ∧ g1.state = g'.state) := by
  obtain ⟨g', hrun, hwf', hbit'⟩ := runOps_keeps_dot_bit sz ops g hwf (by
    rw [h0]
    decide)
  refine ⟨g', hrun, hwf'.1, hbit', ?_, ?_, ?_⟩
  · intro n
    obtain ⟨st, _, hm, hd⟩ := Display_in_digits n g' hwf'.1
    exact ⟨st, hd, hm⟩
  · intro pins
    obtain ⟨g1, hs, _, hstate, _, _⟩ := sample_op sz pins g' hwf'
    exact ⟨g1, hs, hstate⟩
  · intro isSet
    exact ⟨{ g' with dots := g'.dots.set 2 (if isSet then 1 else 0) },
      by simp only [Op.apply, sentinal_step_effect isSet g' hwf'.2.1, Option.map_some'], rfl⟩

/-- Witness for C16: button 1 pressed, the hour adjusted, a heartbeat, a clock round and
a five-digit `Display`, from the booted clock. -/
theorem display_slots_keep_dot_clear_witness :
    ∃ g', runOps .w32
        [.sample fun p => decide (p = 17), .adjust 5 5, .heartbeat true, .face 777,
          .display 88888] Globals.boot = some g' ∧
      g'.state.length = 4 ∧ (∀ v ∈ g'.state, v.testBit 0 = false) ∧
      (∀ n, ∃ st, Display n g' = some { g' with state := st } ∧ ∀ v ∈ st, v ∈ digits) ∧
      (∀ pins, ∃ g1, Op.apply .w32 (.sample pins) g' = some g1 ∧ g1.state = g'.state) ∧
      (∀ isSet, ∃ g1, Op.apply .w32 (.heartbeat isSet) g' = some g1 ∧ g1.state = g'.state) :=
  display_slots_keep_dot_clear .w32 _ Globals.boot
    (by simp [Globals.wellFormed, Globals.boot, addButton, Globals.initial]) rfl


/-! ## Which task writes what -/

/-- The slots `updateFace` leaves when the adjusted time is not negative and fits in an
`int`. -/
theorem updateFace_digits (sz : IntSize) (now : Int) (g : Globals)
    (htot : 0 ≤ now + g.offset) (hmax : now + g.offset ≤ sz.maxInt)
    (hlen : g.state.length = 4) :
    updateFace sz now g = some { g with state :=
      [digitBitmap ((now + g.offset) / 60 % 60 % 10),
       digitBitmap ((now + g.offset) / 60 % 60 / 10),
       digitBitmap ((now + g.offset) / 3600 % 24 % 10),
       digitBitmap ((now + g.offset) / 3600 % 24 / 10)] } := by
  obtain ⟨eh, em⟩ := face_fields (now + g.offset) htot
  obtain ⟨e0, e1, e2, e3⟩ := clock_digits ((now + g.offset) / 3600 % 24)
    ((now + g.offset) / 60 % 60) (by omega) (by omega) (by omega) (by omega)
  have hdisp := Display_digits
    ((now + g.offset) / 3600 % 24 * 100 + (now + g.offset) / 60 % 60) g hlen (by omega)
  rw [e0, e1, e2, e3] at hdisp
  simp only [updateFace, updateFace_when sz now g.offset htot hmax, eh, em, hdisp]

/-- With only the minute button firing, `updateTime` is one `updateFace` on the new
offset. -/
theorem updateTime_minute_only (sz : IntSize) (now0 now1 : Int) (g : Globals) (b0 b1 : button)
    (hlen : g.state.length = 4)
    (h0 : sliceGet g.buttons 0 = some b0) (h1 : sliceGet g.buttons 1 = some b1)
    (hs0 : b0.state = ButtonPressed ∨ b0.state = ButtonHeld)
    (hs1 : b1.state ≠ ButtonPressed) :
    updateTime sz now0 now1 g =
      updateFace sz now0 { g with offset := nextOffset b0.state b1.state g.offset } := by
  obtain ⟨st, _, hf⟩ := setOffset_total sz now0 ((g.offset.tdiv 3600).tmod 24)
    (if (g.offset.tdiv 60).tmod 60 + 1 > 59 then 0 else (g.offset.tdiv 60).tmod 60 + 1)
    g hlen
  have hf' := hf
  simp only [setOffset] at hf'
  simp only [updateTime, h0, hs0, if_true, hf, Option.map_some', h1, hs1, if_false,
    nextOffset, hf']

/-- With only the hour button firing, `updateTime` is one `updateFace` on the new
offset. -/
theorem updateTime_hour_only (sz : IntSize) (now0 now1 : Int) (g : Globals) (b0 b1 : button)
    (h0 : sliceGet g.buttons 0 = some b0) (h1 : sliceGet g.buttons 1 = some b1)
    (hs0 : ¬ (b0.state = ButtonPressed ∨ b0.state = ButtonHeld))
    (hs1 : b1.state = ButtonPressed) :
    updateTime sz now0 now1 g =
      updateFace sz now1 { g with offset := nextOffset b0.state b1.state g.offset } := by
  simp only [updateTime, h0, hs0, if_false, h1, hs1, if_true, nextOffset, setOffset]

theorem render_mask_total (led : Nat) (g : Globals) (hled : led < 4)
    (hst : g.state.length = 4) (hdots : g.dots.length = 4) :
    ∃ w, render.mask led g = some w := by
  have h1 : ∃ s, sliceGet g.state led = some s := by
    refine ⟨g.state.get ⟨led, by omega⟩, ?_⟩
    simp [sliceGet, hst, hled, List.getElem?_eq_getElem]
  have h2 : ∃ d, sliceGet g.dots led = some d := by
    refine ⟨g.dots.get ⟨led, by omega⟩, ?_⟩
    simp [sliceGet, hdots, hled, List.getElem?_eq_getElem]
  obtain ⟨s, hs⟩ := h1
  obtain ⟨d, hd⟩ := h2
  exact ⟨((((s ||| d) <<< 4) % 2 ^ 32) ||| 0b1111) ^^^ ((1 <<< led) % 2 ^ 32),
    by simp only [render.mask, hs, hd]⟩

theorem render_pass_total (g : Globals) (hst : g.state.length = 4)
    (hdots : g.dots.length = 4) :
    ∃ ws, render.pass 0 g = some ws ∧ ws.length = 4 := by
  have h4 : render.pass 4 g = some [] := by
    rw [render.pass]; simp
  obtain ⟨w3, hw3⟩ := render_mask_total 3 g (by decide) hst hdots
  obtain ⟨w2, hw2⟩ := render_mask_total 2 g (by decide) hst hdots
  obtain ⟨w1, hw1⟩ := render_mask_total 1 g (by decide) hst hdots
  obtain ⟨w0, hw0⟩ := render_mask_total 0 g (by decide) hst hdots
  have h3 : render.pass 3 g = some [w3] := by
    rw [render.pass]; simp [hw3, h4]
  have h2 : render.pass 2 g = some [w2, w3] := by
    rw [render.pass]; simp [hw2, h3]
  have h1 : render.pass 1 g = some [w1, w2, w3] := by
    rw [render.pass]; simp [hw1, h2]
  have h0 : render.pass 0 g = some [w0, w1, w2, w3] := by
    rw [render.pass]; simp [hw0, h1]
  exact ⟨_, h0, rfl⟩


/-- C18 as stated fails for the display slots: from the booted clock, a round of `clock`
writes slot 0 (it becomes the bitmap of 0), and a round of `checkButtons` in which
button 0 goes down writes slot 0 as well (it becomes the bitmap of 1). -/
theorem display_slot_written_by_two_tasks :
    Globals.boot.state = [0, 0, 0, 0] ∧
    (∃ g1, clock.step .w32 0 Globals.boot = some g1 ∧ g1.state = [252, 252, 252, 252]) ∧
    (∃ g2, checkButtons.step .w32 (fun p => decide (p = 16)) 0 0 Globals.boot = some g2 ∧
      g2.state = [96, 252, 252, 252]) := by
  refine ⟨rfl, ?_, ?_⟩
  · refine ⟨_, updateFace_digits .w32 0 Globals.boot (by decide) (by decide) rfl, ?_⟩
    decide
  · have hs : checkButtons.sample .w32 (fun p => decide (p = 16)) Globals.boot.buttons
        Globals.boot.dots =
        some ([{ index := 0, pin := 16, dwell := 1, pressed := true },
               { index := 1, pin := 17, dwell := 0, pressed := false }], [1, 0, 0, 0]) := by
      decide
    simp only [checkButtons.step, hs]
    rw [updateTime_minute_only .w32 0 0
      { state := Globals.boot.state, dots := [1, 0, 0, 0],
        buttons := [{ index := 0, pin := 16, dwell := 1, pressed := true },
                    { index := 1, pin := 17, dwell := 0, pressed := false }],
        offset := Globals.boot.offset }
      { index := 0, pin := 16, dwell := 1, pressed := true }
      { index := 1, pin := 17, dwell := 0, pressed := false } rfl rfl rfl
      (Or.inl (by decide)) (by decide)]
    refine ⟨_, updateFace_digits .w32 0 _ (by decide) (by decide) rfl, ?_⟩
    decide

/-- C18, amended: on a set-up clock, a round of `clock` leaves the dots and the offset
alone; a round of `sentinal` leaves the display slots, the offset and every dot but
dot 2 alone; a round of `checkButtons` leaves dots 2 and 3 alone; and a pass of
`render` returns its four writes to the device and changes nothing.  So each dot and
the offset has at most one writing task, while the display slots have two, `clock`
and `checkButtons`. -/
theorem dots_and_offset_have_one_writer (sz : IntSize) (g : Globals) (now now0 now1 : Int) (isSet : Bool)
    (pins : Nat → Bool) (hwf : g.wellFormed) :
    (∃ g', clock.step sz now g = some g' ∧ g'.dots = g.dots ∧ g'.offset = g.offset) ∧
    (∃ r g', sentinal.step isSet g = some (r, g') ∧ g'.state = g.state ∧
      g'.offset = g.offset ∧ ∀ j : Int, j ≠ 2 → sliceGet g'.dots j = sliceGet g.dots j) ∧
    (∃ g', checkButtons.step sz pins now0 now1 g = some g' ∧
      ∀ j : Int, 2 ≤ j → sliceGet g'.dots j = sliceGet g.dots j) ∧
    (∃ ws, render.pass 0 g = some ws ∧ ws.length = 4) := by
  have hwf' := hwf
  obtain ⟨hst, hdots, hbtn, hidx⟩ := hwf'
  refine ⟨?_, ?_, ?_, render_pass_total g hst hdots⟩
  · obtain ⟨st, _, hf⟩ := updateFace_total sz now g hst
    exact ⟨_, hf, rfl, rfl⟩
  · refine ⟨_, _, sentinal_step_effect isSet g hdots, rfl, rfl, ?_⟩
    intro j hj
    exact sliceGet_set_ne g.dots 2 j _ (by decide) hj
  · obtain ⟨bs', dots', hs, hl, hi, hdl, hfr⟩ :=
      sample_frame sz pins g.buttons g.dots hidx (by omega)
    obtain ⟨b0, b1, h0, h1⟩ := two_buttons bs' (by omega)
    obtain ⟨st, _, _, hu⟩ := updateTime_state sz now0 now1
      { g with buttons := bs', dots := dots' } b0 b1 hst h0 h1
    exact ⟨{ state := st, dots := dots', buttons := bs',
             offset := nextOffset b0.state b1.state g.offset },
      by simp only [checkButtons.step, hs, hu], hfr⟩

/-- Witness for C18, amended: the booted clock with button 0 down. -/
theorem dots_and_offset_have_one_writer_witness :
    (∃ g', clock.step .w32 50399 Globals.boot = some g' ∧
      g'.dots = Globals.boot.dots ∧ g'.offset = Globals.boot.offset) ∧
    (∃ r g', sentinal.step true Globals.boot = some (r, g') ∧
      g'.state = Globals.boot.state ∧ g'.offset = Globals.boot.offset ∧
      ∀ j : Int, j ≠ 2 → sliceGet g'.dots j = sliceGet Globals.boot.dots j) ∧
    (∃ g', checkButtons.step .w32 (fun p => decide (p = 16)) 50399 50399 Globals.boot = some g' ∧
      ∀ j : Int, 2 ≤ j → sliceGet g'.dots j = sliceGet Globals.boot.dots j) ∧
    (∃ ws, render.pass 0 Globals.boot = some ws ∧ ws.length = 4) :=
  dots_and_offset_have_one_writer .w32 Globals.boot 50399 50399 50399 true
    (fun p => decide (p = 16))
    (by simp [Globals.wellFormed, Globals.boot, addButton, Globals.initial])


/-! ## What the face shows after an adjustment -/

/-- C19 as stated fails where the adjusted time leaves the range of `int`.  With a
32-bit `int`, the clock reading `2^31 - 1` and offset 0, the face shows 03:14; a press
of the minute button makes the offset 60, the sum wraps to a negative number, and the
slots all show 0, where the claim has minute 15 (bitmap 182 in slot 0). -/
theorem adjustment_wraps_past_maxInt :
    (0 : Int) ≤ 2147483647 ∧
    updateFace .w32 2147483647
        { state := [0, 0, 0, 0], dots := [1, 0, 0, 0],
          buttons := [{ index := 0, pin := 16, dwell := 1, pressed := true },
                      { index := 1, pin := 17, dwell := 0, pressed := false }],
          offset := 0 } =
      some
        { state := [102, 96, 242, 252], dots := [1, 0, 0, 0],
          buttons := [{ index := 0, pin := 16, dwell := 1, pressed := true },
                      { index := 1, pin := 17, dwell := 0, pressed := false }],
          offset := 0 } ∧
    updateTime .w32 2147483647 2147483647
        { state := [0, 0, 0, 0], dots := [1, 0, 0, 0],
          buttons := [{ index := 0, pin := 16, dwell := 1, pressed := true },
                      { index := 1, pin := 17, dwell := 0, pressed := false }],
          offset := 0 } =
      some
        { state := [252, 252, 252, 252], dots := [1, 0, 0, 0],
          buttons := [{ index := 0, pin := 16, dwell := 1, pressed := true },
                      { index := 1, pin := 17, dwell := 0, pressed := false }],
          offset := 60 } ∧
    (((2147483647 : Int) + 0) / 60 % 60 + 1) % 60 = 15 ∧
    sliceGet digits (15 % 10) = some 182 ∧ (182 : Nat) ≠ 252 := by
  refine ⟨by decide, ?_, ?_, by decide, by decide, by decide⟩
  · rw [updateFace_digits .w32 2147483647
      { state := [0, 0, 0, 0], dots := [1, 0, 0, 0],
        buttons := [{ index := 0, pin := 16, dwell := 1, pressed := true },
                    { index := 1, pin := 17, dwell := 0, pressed := false }],
        offset := 0 } (by decide) (by decide) rfl]
    decide
  · rw [updateTime_minute_only .w32 2147483647 2147483647
      { state := [0, 0, 0, 0], dots := [1, 0, 0, 0],
        buttons := [{ index := 0, pin := 16, dwell := 1, pressed := true },
                    { index := 1, pin := 17, dwell := 0, pressed := false }],
        offset := 0 }
      { index := 0, pin := 16, dwell := 1, pressed := true }
      { index := 1, pin := 17, dwell := 0, pressed := false } rfl rfl rfl
      (Or.inl (by decide)) (by decide)]
    exact Display_nonpos _ _ rfl (by decide)

/-- C19, amended: hold the clock reading `now ≥ 0` fixed and start from a normalized
offset, with `now + offset` not above the largest `int` before the adjustment and
after it.  Before the adjustment `updateFace` shows the hour and minute of
`now + offset`.  After a minute-button adjustment the call has returned, the slots are
the ones `updateFace` shows for the new offset, and the minute shown is the one shown
before plus one, modulo 60.  After an hour-button adjustment the hour shown is the one
shown before plus one, modulo 24, and the minute shown is unchanged.  Both hold on the
ticks where the minute or hour field of the offset wraps to 0. -/
theorem shown_time_after_adjustment (sz : IntSize) (now h m : Int) (g : Globals)
    (b0 b1 : button)
    (hnow : 0 ≤ now) (hh0 : 0 ≤ h) (hh : h < 24) (hm0 : 0 ≤ m) (hm : m < 60)
    (ho : g.offset = h * 3600 + m * 60) (hbefore : now + g.offset ≤ sz.maxInt)
    (hlen : g.state.length = 4)
    (h0 : sliceGet g.buttons 0 = some b0) (h1 : sliceGet g.buttons 1 = some b1) :
    (∃ d0 d1 d2 d3,
      sliceGet digits ((now + g.offset) / 60 % 60 % 10) = some d0 ∧
      sliceGet digits ((now + g.offset) / 60 % 60 / 10) = some d1 ∧
      sliceGet digits ((now + g.offset) / 3600 % 24 % 10) = some d2 ∧
      sliceGet digits ((now + g.offset) / 3600 % 24 / 10) = some d3 ∧
      updateFace sz now g = some { g with state := [d0, d1, d2, d3] }) ∧
    (b0.state = ButtonPressed ∨ b0.state = ButtonHeld → b1.state ≠ ButtonPressed →
      now + (h * 3600 + (m + 1) % 60 * 60) ≤ sz.maxInt →
      ∃ g' d0 d1, updateTime sz now now g = some g' ∧ updateFace sz now g' = some g' ∧
        ((now + g'.offset).tdiv 60).tmod 60 = ((now + g.offset) / 60 % 60 + 1) % 60 ∧
        sliceGet digits (((now + g.offset) / 60 % 60 + 1) % 60 % 10) = some d0 ∧
        sliceGet digits (((now + g.offset) / 60 % 60 + 1) % 60 / 10) = some d1 ∧
        sliceGet g'.state 0 = some d0 ∧ sliceGet g'.state 1 = some d1) ∧
    (b0.state = ButtonOff → b1.state = ButtonPressed →
      now + ((h + 1) % 24 * 3600 + m * 60) ≤ sz.maxInt →
      ∃ g' d0 d1 d2 d3, updateTime sz now now g = some g' ∧ updateFace sz now g' = some g' ∧
        ((now + g'.offset).tdiv 3600).tmod 24 = ((now + g.offset) / 3600 % 24 + 1) % 24 ∧
        ((now + g'.offset).tdiv 60).tmod 60 = (now + g.offset) / 60 % 60 ∧
        sliceGet digits ((now + g.offset) / 60 % 60 % 10) = some d0 ∧
        sliceGet digits ((now + g.offset) / 60 % 60 / 10) = some d1 ∧
        sliceGet digits (((now + g.offset) / 3600 % 24 + 1) % 24 % 10) = some d2 ∧
        sliceGet digits (((now + g.offset) / 3600 % 24 + 1) % 24 / 10) = some d3 ∧
        g'.state = [d0, d1, d2, d3]) := by
  refine ⟨?_, ?_, ?_⟩
  · have hb := updateFace_digits sz now g (by rw [ho]; omega) hbefore hlen
    exact ⟨_, _, _, _, sliceGet_digits _ (by omega) (by omega),
      sliceGet_digits _ (by omega) (by omega), sliceGet_digits _ (by omega) (by omega),
      sliceGet_digits _ (by omega) (by omega), hb⟩
  · intro hs0 hs1 hafter
    have hu := updateTime_minute_only sz now now g b0 b1 hlen h0 h1 hs0 hs1
    rw [ho, nextOffset_minute _ _ h m hh0 hh hm0 hm hs0 hs1] at hu
    have hf := updateFace_digits sz now { g with offset := h * 3600 + (m + 1) % 60 * 60 }
      (by show 0 ≤ now + (h * 3600 + (m + 1) % 60 * 60); omega) hafter hlen
    obtain ⟨_, e2⟩ := face_fields (now + (h * 3600 + (m + 1) % 60 * 60)) (by omega)
    have em : (now + (h * 3600 + (m + 1) % 60 * 60)) / 60 % 60 =
        ((now + g.offset) / 60 % 60 + 1) % 60 := by
      rw [ho]; omega
    simp only [em] at hf
    refine ⟨_, _, _, hu.trans hf, ?_, ?_, sliceGet_digits _ (by omega) (by omega),
      sliceGet_digits _ (by omega) (by omega), rfl, rfl⟩
    · have hf2 := updateFace_digits sz now
        { g with
          offset := h * 3600 + (m + 1) % 60 * 60
          state :=
            [digitBitmap (((now + g.offset) / 60 % 60 + 1) % 60 % 10),
             digitBitmap (((now + g.offset) / 60 % 60 + 1) % 60 / 10),
             digitBitmap ((now + (h * 3600 + (m + 1) % 60 * 60)) / 3600 % 24 % 10),
             digitBitmap ((now + (h * 3600 + (m + 1) % 60 * 60)) / 3600 % 24 / 10)] }
        (by show 0 ≤ now + (h * 3600 + (m + 1) % 60 * 60); omega) hafter rfl
      simp only [em] at hf2
      exact hf2
    · show ((now + (h * 3600 + (m + 1) % 60 * 60)).tdiv 60).tmod 60 = _
      rw [e2, em]
  · intro hs0 hs1 hafter
    have hoff : ¬ (b0.state = ButtonPressed ∨ b0.state = ButtonHeld) := by
      rw [hs0]; decide
    have hu := updateTime_hour_only sz now now g b0 b1 h0 h1 hoff hs1
    rw [ho, nextOffset_hour _ _ h m hh0 hh hm0 hm hoff hs1] at hu
    have hf := updateFace_digits sz now { g with offset := (h + 1) % 24 * 3600 + m * 60 }
      (by show 0 ≤ now + ((h + 1) % 24 * 3600 + m * 60); omega) hafter hlen
    obtain ⟨e1, e2⟩ := face_fields (now + ((h + 1) % 24 * 3600 + m * 60)) (by omega)
    have em : (now + ((h + 1) % 24 * 3600 + m * 60)) / 60 % 60 =
        (now + g.offset) / 60 % 60 := by
      rw [ho]; omega
    have eh : (now + ((h + 1) % 24 * 3600 + m * 60)) / 3600 % 24 =
        ((now + g.offset) / 3600 % 24 + 1) % 24 := by
      rw [ho]; omega
    simp only [em, eh] at hf
    refine ⟨_, _, _, _, _, hu.trans hf, ?_, ?_, ?_, sliceGet_digits _ (by omega) (by omega),
      sliceGet_digits _ (by omega) (by omega), sliceGet_digits _ (by omega) (by omega),
      sliceGet_digits _ (by omega) (by omega), rfl⟩
    · have hf2 := updateFace_digits sz now
        { g with
          offset := (h + 1) % 24 * 3600 + m * 60
          state :=
            [digitBitmap ((now + g.offset) / 60 % 60 % 10),
             digitBitmap ((now + g.offset) / 60 % 60 / 10),
             digitBitmap (((now + g.offset) / 3600 % 24 + 1) % 24 % 10),
             digitBitmap (((now + g.offset) / 3600 % 24 + 1) % 24 / 10)] }
        (by show 0 ≤ now + ((h + 1) % 24 * 3600 + m * 60); omega) hafter rfl
      simp only [em, eh] at hf2
      exact hf2
    · show ((now + ((h + 1) % 24 * 3600 + m * 60)).tdiv 3600).tmod 24 = _
      rw [e1, eh]
    · show ((now + ((h + 1) % 24 * 3600 + m * 60)).tdiv 60).tmod 60 = _
      rw [e2, em]


/-- Witness for C19, amended: the wall clock reads 13:59:59; the minute button is held while the
offset is 07:59, then the hour button is pressed while the offset is 23:30. -/
theorem shown_time_after_adjustment_witness :
    (∃ d0 d1 d2 d3,
      sliceGet digits ((50399 + (7 * 3600 + 59 * 60)) / 60 % 60 % 10) = some d0 ∧
      sliceGet digits ((50399 + (7 * 3600 + 59 * 60)) / 60 % 60 / 10) = some d1 ∧
      sliceGet digits ((50399 + (7 * 3600 + 59 * 60)) / 3600 % 24 % 10) = some d2 ∧
      sliceGet digits ((50399 + (7 * 3600 + 59 * 60)) / 3600 % 24 / 10) = some d3 ∧
      updateFace .w32 50399
        { state := [0, 0, 0, 0], dots := [1, 0, 0, 0],
          buttons := [{ index := 0, pin := 16, dwell := 51, pressed := false },
                      { index := 1, pin := 17, dwell := 0, pressed := false }],
          offset := 7 * 3600 + 59 * 60 } =
        some
          { state := [d0, d1, d2, d3], dots := [1, 0, 0, 0],
            buttons := [{ index := 0, pin := 16, dwell := 51, pressed := false },
                        { index := 1, pin := 17, dwell := 0, pressed := false }],
            offset := 7 * 3600 + 59 * 60 }) ∧
    (∃ g' d0 d1, updateTime .w32 50399 50399
        { state := [0, 0, 0, 0], dots := [1, 0, 0, 0],
          buttons := [{ index := 0, pin := 16, dwell := 51, pressed := false },
                      { index := 1, pin := 17, dwell := 0, pressed := false }],
          offset := 7 * 3600 + 59 * 60 } = some g' ∧ updateFace .w32 50399 g' = some g' ∧
        ((50399 + g'.offset).tdiv 60).tmod 60 =
          ((50399 + (7 * 3600 + 59 * 60)) / 60 % 60 + 1) % 60 ∧
        sliceGet digits (((50399 + (7 * 3600 + 59 * 60)) / 60 % 60 + 1) % 60 % 10) = some d0 ∧
        sliceGet digits (((50399 + (7 * 3600 + 59 * 60)) / 60 % 60 + 1) % 60 / 10) = some d1 ∧
        sliceGet g'.state 0 = some d0 ∧ sliceGet g'.state 1 = some d1) ∧
    (∃ g' d0 d1 d2 d3, updateTime .w32 50399 50399
        { state := [0, 0, 0, 0], dots := [0, 1, 0, 0],
          buttons := [{ index := 0, pin := 16, dwell := 0, pressed := false },
                      { index := 1, pin := 17, dwell := 1, pressed := true }],
          offset := 23 * 3600 + 30 * 60 } = some g' ∧ updateFace .w32 50399 g' = some g' ∧
        ((50399 + g'.offset).tdiv 3600).tmod 24 =
          ((50399 + (23 * 3600 + 30 * 60)) / 3600 % 24 + 1) % 24 ∧
        ((50399 + g'.offset).tdiv 60).tmod 60 = (50399 + (23 * 3600 + 30 * 60)) / 60 % 60 ∧
        sliceGet digits ((50399 + (23 * 3600 + 30 * 60)) / 60 % 60 % 10) = some d0 ∧
        sliceGet digits ((50399 + (23 * 3600 + 30 * 60)) / 60 % 60 / 10) = some d1 ∧
        sliceGet digits (((50399 + (23 * 3600 + 30 * 60)) / 3600 % 24 + 1) % 24 % 10) =
          some d2 ∧
        sliceGet digits (((50399 + (23 * 3600 + 30 * 60)) / 3600 % 24 + 1) % 24 / 10) =
          some d3 ∧
        g'.state = [d0, d1, d2, d3]) :=
  ⟨(shown_time_after_adjustment .w32 50399 7 59
      { state := [0, 0, 0, 0], dots := [1, 0, 0, 0],
        buttons := [{ index := 0, pin := 16, dwell := 51, pressed := false },
                    { index := 1, pin := 17, dwell := 0, pressed := false }],
        offset := 7 * 3600 + 59 * 60 }
      { index := 0, pin := 16, dwell := 51, pressed := false }
      { index := 1, pin := 17, dwell := 0, pressed := false }
      (by decide) (by decide) (by decide) (by decide) (by decide) rfl (by decide)
      rfl rfl rfl).1,
    (shown_time_after_adjustment .w32 50399 7 59
      { state := [0, 0, 0, 0], dots := [1, 0, 0, 0],
        buttons := [{ index := 0, pin := 16, dwell := 51, pressed := false },
                    { index := 1, pin := 17, dwell := 0, pressed := false }],
        offset := 7 * 3600 + 59 * 60 }
      { index := 0, pin := 16, dwell := 51, pressed := false }
      { index := 1, pin := 17, dwell := 0, pressed := false }
      (by decide) (by decide) (by decide) (by decide) (by decide) rfl (by decide)
      rfl rfl rfl).2.1
      (Or.inr (by decide)) (by decide) (by decide),
    (shown_time_after_adjustment .w32 50399 23 30
      { state := [0, 0, 0, 0], dots := [0, 1, 0, 0],
        buttons := [{ index := 0, pin := 16, dwell := 0, pressed := false },
                    { index := 1, pin := 17, dwell := 1, pressed := true }],
        offset := 23 * 3600 + 30 * 60 }
      { index := 0, pin := 16, dwell := 0, pressed := false }
      { index := 1, pin := 17, dwell := 1, pressed := true }
      (by decide) (by decide) (by decide) (by decide) (by decide) rfl (by decide)
      rfl rfl rfl).2.2
      (by decide) (by decide) (by decide)⟩

/-! ## `Display` cannot go out of range -/

/-- C20: for every integer `n` (zero, negative or above 9999) `Display n` returns on four
slots: it is a total function, and it returns `some`, so no index it used was out of
range.  The slots it leaves are four entries of the digit table.  The digit index
`n mod 10` is taken only while `n > 0`, where it lies in `0..9` and the table has an
entry; for `n ≤ 0` the first loop writes nothing. -/
theorem Display_indices_in_range (n : Int) (g : Globals) (hlen : g.state.length = 4) :
    (∃ st, Display n g = some { g with state := st } ∧ st.length = 4 ∧
      ∀ v ∈ st, v ∈ digits) ∧
    (0 < n → 0 ≤ n.tmod 10 ∧ n.tmod 10 ≤ 9 ∧ ∃ v, sliceGet digits (n.tmod 10) = some v) ∧
    (n ≤ 0 → Display.fill n 0 g.state = some (n, 0, g.state)) := by
  refine ⟨?_, ?_, ?_⟩
  · obtain ⟨st, hl, hm, hd⟩ := Display_in_digits n g hlen
    exact ⟨st, hd, hl, hm⟩
  · intro hn
    have e : n.tmod 10 = n % 10 := Int.tmod_eq_emod (le_of_lt hn) (by decide)
    rw [e]
    exact ⟨by omega, by omega, _, sliceGet_digits (n % 10) (by omega) (by omega)⟩
  · intro hn
    exact fill_stop n 0 g.state (by omega)

/-- Witness for C20: a negative number over stale slots, and a six-digit number. -/
theorem Display_indices_in_range_witness :
    ((∃ st, Display (-7) { Globals.boot with state := [1, 2, 3, 4] } =
        some { Globals.boot with state := st } ∧ st.length = 4 ∧ ∀ v ∈ st, v ∈ digits) ∧
      Display.fill (-7) 0 [1, 2, 3, 4] = some (-7, 0, [1, 2, 3, 4])) ∧
    ((∃ st, Display 123456 Globals.boot = some { Globals.boot with state := st } ∧
        st.length = 4 ∧ ∀ v ∈ st, v ∈ digits) ∧
      0 ≤ (123456 : Int).tmod 10 ∧ (123456 : Int).tmod 10 ≤ 9 ∧
      ∃ v, sliceGet digits ((123456 : Int).tmod 10) = some v) :=
  ⟨⟨(Display_indices_in_range (-7) { Globals.boot with state := [1, 2, 3, 4] } rfl).1,
      (Display_indices_in_range (-7) { Globals.boot with state := [1, 2, 3, 4] } rfl).2.2
        (by decide)⟩,
    ⟨(Display_indices_in_range 123456 Globals.boot rfl).1,
      (Display_indices_in_range 123456 Globals.boot rfl).2.1 (by decide)⟩⟩

end Clocky
